import Mathlib

/-!
tcpkali: open-file limit negotiation and sanity audit.

A shallow embedding of `tcpkali_syslimits.c`.  The two entry points
`adjust_system_limits_for_highload` and `check_system_limits_sanity` talk to the
operating system (`getrlimit`, `setrlimit`, `sysconf`, two files under `/proc`,
`stderr`).  The operating system is an explicit state `OS` that is passed through
every call; the kernel's answer to `setrlimit` is a parameter (`Setter`).

Machine integers follow the LP64 data model of the platform the file targets:
`int` is 32 bit two's complement, `long` is 64 bit, `rlim_t` and `size_t` are
64 bit unsigned.
-/

namespace Tcpkali

/-! ## Machine integers -/

/-- Largest value of a C `int`. -/
def INT_MAX : Int := 2147483647

/-- Smallest value of a C `int`. -/
def INT_MIN : Int := -2147483648

/-- Reduction of a mathematical integer to the 32 bit two's complement range.
C leaves signed overflow undefined; the embedding takes the two's complement
result, and the statements that read a sum as a number assume it stays in range. -/
def wrap_int (x : Int) : Int := (x + 2147483648) % 4294967296 - 2147483648

/-- Addition of two `int` values as the machine performs it. -/
def int_add (a b : Int) : Int := wrap_int (a + b)

/-- Subtraction of two `int` values as the machine performs it. -/
def int_sub (a b : Int) : Int := wrap_int (a - b)

/-- Conversion of a signed value to `rlim_t`: reduction modulo `2^64`. -/
def to_rlim_t (x : Int) : Nat := (x % 18446744073709551616).toNat

/-- Conversion of a signed value to `size_t`: reduction modulo `2^64`. -/
def to_size_t (x : Int) : Nat := (x % 18446744073709551616).toNat

/-- Conversion of an `rlim_t` value to `long`, the cast `(long)x` of the messages. -/
def to_long (n : Nat) : Int :=
  ((n : Int) + 9223372036854775808) % 18446744073709551616 - 9223372036854775808

/-- The `rlim_t` value that stands for "no limit". -/
def RLIM_INFINITY : Nat := 18446744073709551615

/-- Error number "operation not permitted". -/
def EPERM : Nat := 1

/-- Error number "invalid argument". -/
def EINVAL : Nat := 22

/-! ## Operating system state -/

/-- The resource limit pair `struct rlimit`. -/
structure rlimit where
  rlim_cur : Nat
  rlim_max : Nat
deriving DecidableEq

/-- One `setrlimit` call as the kernel saw it: the requested pair and the error
number it was refused with (`none` when it was accepted). -/
structure Attempt where
  req : rlimit
  refused : Option Nat
deriving DecidableEq

/-- A line written to standard error, with the values printed in it. -/
inductive Msg where
  | perror_sysconf
  | setrlimit_failed (cur max : Int) (errno : Nat)
  | could_not_adjust (previous lowest : Int)
  | adjusted_too_low (previous achieved : Int) (connections : Int)
  | adjusted (previous achieved : Int)
  | warn_open_files (limit : Int) (connections : Int)
  | warn_system_wide (limit : Int) (connections : Int)
  | warn_port_range (connections : Int) (lo hi : Int)
  | warn_time_wait (connections : Int)
deriving DecidableEq

/-- Everything of the operating system the two routines read or write.

* `nofile`: the `RLIMIT_NOFILE` pair of the process;
* `getrlimit_ret`: what `getrlimit` returns (0 on success);
* `sysconf_open_max`: what `sysconf(_SC_OPEN_MAX)` returns (-1 on failure);
* `OPEN_MAX`: the value of the macro `OPEN_MAX` where the platform headers define
  it, `none` where they do not;
* `port_range`, `tw_reuse`: the two `/proc` files, `none` when `fopen` fails,
  otherwise the integers that successive `%d` conversions read from the start
  of the file;
* `errno`: the thread's error number;
* `calls`: the `setrlimit` calls received so far, oldest first;
* `stderr`: the lines written to standard error so far, oldest first. -/
structure OS where
  nofile : rlimit
  getrlimit_ret : Int
  sysconf_open_max : Int
  OPEN_MAX : Option Nat
  port_range : Option (List Int)
  tw_reuse : Option (List Int)
  errno : Nat
  calls : List Attempt
  stderr : List Msg

/-- The kernel's decision on a `setrlimit` request in a given state: `none`
accepts it, `some e` refuses it with error number `e`. -/
abbrev Setter := OS → rlimit → Option Nat

/-- Query `getrlimit(RLIMIT_NOFILE, &buf)`: the return code and the pair read. -/
def getrlimit (os : OS) : Int × rlimit := (os.getrlimit_ret, os.nofile)

/-- Call `setrlimit(RLIMIT_NOFILE, &rlp)`: an accepted request installs the pair and
returns 0, a refused one leaves the pair alone, sets `errno` and returns -1. -/
def setrlimit (k : Setter) (os : OS) (rlp : rlimit) : Int × OS :=
  match k os rlp with
  | none => (0, { os with nofile := rlp, calls := os.calls ++ [⟨rlp, none⟩] })
  | some e => (-1, { os with errno := e, calls := os.calls ++ [⟨rlp, some e⟩] })

/-- Write one line to standard error. -/
def fprintf_stderr (os : OS) (m : Msg) : OS := { os with stderr := os.stderr ++ [m] }

/-- Count of items assigned by `fscanf(f, "%d %d", &lo, &hi)` on a file whose
leading integers are `xs`, with the two values read. -/
def fscanf_d_d : List Int → Int × Int × Int
  | [] => (0, 0, 0)
  | [a] => (1, a, 0)
  | a :: b :: _ => (2, a, b)

/-- Count of items assigned by `fscanf(f, "%d", &flag)` and the value read. -/
def fscanf_d : List Int → Int × Int
  | [] => (0, 0)
  | a :: _ => (1, a)

/-! ## The program -/

/-- Comparator of `qsort`: sorts limits in descending order. -/
def compare_rlimits (a b : Nat) : Int :=
  if a < b then 1
  else if a > b then -1
  else 0

/-- Library `qsort` on an array of `rlim_t`: the array rearranged so that the
comparator does not report any element as greater than its successor. -/
def qsort (cmp : Nat → Nat → Int) (xs : List Nat) : List Nat :=
  xs.insertionSort (fun a b => cmp a b ≤ 0)

/-- Determine the global limit on open files.  The fallback is `OPEN_MAX` under
`#ifdef OPEN_MAX` and the literal 1024 under `#else`. -/
def max_open_files (os : OS) : Nat × OS :=
  let value := os.sysconf_open_max
  if value ≠ -1 then (to_rlim_t value, os)
  else
    (match os.OPEN_MAX with
      | some open_max => open_max
      | none => 1024,
      fprintf_stderr os Msg.perror_sysconf)

/-- The initializer of the array `limits`, before sorting. -/
def limits_init (expected_sockets workers : Int) (prev_limit : rlimit) (max_open : Nat) :
    List Nat :=
  [ if prev_limit.rlim_max ≠ RLIM_INFINITY then prev_limit.rlim_max else max_open,
    to_rlim_t (int_add (int_add expected_sockets 100) workers),
    to_rlim_t (int_add (int_add expected_sockets 4) workers) ]

/-- How the `for` loop over the candidate limits is left: by `return`, or by
`break` or the loop condition with the index `i` it stopped at. -/
inductive LoopExit where
  | returned (ret : Int)
  | left (i : Nat)
deriving DecidableEq

/-- The loop `for(i = 0; i < limits_count; i++)`, with `fuel = limits_count - i`
iterations to go. -/
def set_limits_loop (k : Setter) (limits : List Nat) : Nat → Nat → OS → LoopExit × OS
  | 0, i, os => (LoopExit.left i, os)
  | fuel + 1, i, os =>
    let rlp : rlimit := ⟨limits.getD i 0, limits.getD i 0⟩
    let r := setrlimit k os rlp
    if r.1 = -1 then
      if r.2.errno = EPERM ∨ r.2.errno = EINVAL then
        set_limits_loop k limits fuel (i + 1) r.2
      else
        (LoopExit.returned (-1),
          fprintf_stderr r.2
            (Msg.setrlimit_failed (to_long rlp.rlim_cur) (to_long rlp.rlim_max) r.2.errno))
    else
      (LoopExit.left i, r.2)

/-- Adjust number of open files.  The result is `none` when the assertion on
`getrlimit` fails, otherwise the value returned. -/
def adjust_system_limits_for_highload (k : Setter) (expected_sockets workers : Int)
    (os : OS) : Option Int × OS :=
  let m := max_open_files os
  let max_open := m.1
  let os := m.2
  let g := getrlimit os
  let prev_limit := g.2
  if g.1 ≠ 0 then (none, os)
  else
    let limits := qsort compare_rlimits (limits_init expected_sockets workers prev_limit max_open)
    let limits_count := 3
    if prev_limit.rlim_cur ≥ limits.getD 0 0 then (some 0, os)
    else
      match set_limits_loop k limits limits_count 0 os with
      | (LoopExit.returned ret, os) => (some ret, os)
      | (LoopExit.left i, os) =>
        if i = limits_count then
          (some (-1),
            fprintf_stderr os
              (Msg.could_not_adjust (to_long prev_limit.rlim_cur)
                (to_long (limits.getD (limits_count - 1) 0))))
        else if limits.getD i 0 < to_size_t (int_add (int_add expected_sockets 4) workers) then
          (some (-1),
            fprintf_stderr os
              (Msg.adjusted_too_low (to_long prev_limit.rlim_cur) (to_long (limits.getD i 0))
                expected_sockets))
        else
          (some 0,
            fprintf_stderr os
              (Msg.adjusted (to_long prev_limit.rlim_cur) (to_long (limits.getD i 0))))

/-- First block of the audit: the process limit and the system-wide limit. -/
def check_open_files (expected_sockets workers : Int) (rlp : rlimit) (return_value : Int)
    (os : OS) : Int × OS :=
  if rlp.rlim_cur < to_rlim_t (int_add (int_add expected_sockets 4) workers) then
    (-1, fprintf_stderr os (Msg.warn_open_files (to_long rlp.rlim_cur) expected_sockets))
  else
    let m := max_open_files os
    if m.1 < to_rlim_t (int_add (int_add expected_sockets 4) workers) then
      (-1, fprintf_stderr m.2 (Msg.warn_system_wide (to_long rlp.rlim_cur) expected_sockets))
    else
      (return_value, m.2)

/-- Second block of the audit: the ephemeral port range. -/
def check_port_range (expected_sockets : Int) (return_value : Int) (os : OS) : Int × OS :=
  match os.port_range with
  | some f =>
    let s := fscanf_d_d f
    let lo := s.2.1
    let hi := s.2.2
    if s.1 = 2 then
      if int_sub hi lo < expected_sockets then
        (-1, fprintf_stderr os (Msg.warn_port_range expected_sockets lo hi))
      else (return_value, os)
    else (return_value, os)
  | none => (return_value, os)

/-- Third block of the audit: reuse of sockets in TIME_WAIT. -/
def check_time_wait (expected_sockets : Int) (return_value : Int) (os : OS) : Int × OS :=
  match os.tw_reuse with
  | some f =>
    let s := fscanf_d f
    let flag := s.2
    if s.1 = 1 then
      if flag ≠ 1 ∧ expected_sockets > 1 then
        (-1, fprintf_stderr os (Msg.warn_time_wait expected_sockets))
      else (return_value, os)
    else (return_value, os)
  | none => (return_value, os)

/-- Check that the limits are sane and print out if not.  The result is `none`
when the assertion on `getrlimit` fails, otherwise the value returned. -/
def check_system_limits_sanity (expected_sockets workers : Int) (os : OS) :
    Option Int × OS :=
  let return_value : Int := 0
  let g := getrlimit os
  let rlp := g.2
  if g.1 ≠ 0 then (none, os)
  else
    let a := check_open_files expected_sockets workers rlp return_value os
    let b := check_port_range expected_sockets a.1 a.2
    let c := check_time_wait expected_sockets b.1 b.2
    (some c.1, c.2)

/-! ## Vocabulary of the statements -/

/-- An attempt refused with one of the two error numbers on which the loop goes on. -/
def Attempt.soft_refused (a : Attempt) : Prop :=
  a.refused = some EPERM ∨ a.refused = some EINVAL

/-- The request that sets both limits to `v`. -/
def both (v : Nat) : rlimit := ⟨v, v⟩

/-- The three candidate ceilings of a negotiation started in state `os`, unsorted. -/
def candidate_limits (expected_sockets workers : Int) (os : OS) : List Nat :=
  limits_init expected_sockets workers os.nofile (max_open_files os).1

/-- The candidate ceilings in the order in which they are tried. -/
def sorted_limits (expected_sockets workers : Int) (os : OS) : List Nat :=
  qsort compare_rlimits (candidate_limits expected_sockets workers os)

/-- The `setrlimit` calls made between state `os` and the later state `os1`. -/
def new_calls (os os1 : OS) : List Attempt := os1.calls.drop os.calls.length

/-- The lines written to standard error between state `os` and the later state `os1`. -/
def new_stderr (os os1 : OS) : List Msg := os1.stderr.drop os.stderr.length

/-- Value returned after the loop was left by `ex`. -/
def exit_value (expected_sockets workers : Int) (limits : List Nat) : LoopExit → Int
  | LoopExit.returned ret => ret
  | LoopExit.left i =>
    if i = 3 then -1
    else if limits.getD i 0 < to_size_t (int_add (int_add expected_sockets 4) workers) then -1
    else 0

/-- Runs of the loop: `LoopRun limits fuel i nf tr ex nf1` says that from index `i`
with `fuel` iterations to go and limit pair `nf`, the loop makes the calls `tr`,
leaves by `ex` and the limit pair is `nf1` afterwards. -/
inductive LoopRun (limits : List Nat) :
    Nat → Nat → rlimit → List Attempt → LoopExit → rlimit → Prop
  | exhausted (i : Nat) (nf : rlimit) : LoopRun limits 0 i nf [] (LoopExit.left i) nf
  | accepted (fuel i : Nat) (nf : rlimit) :
      LoopRun limits (fuel + 1) i nf [⟨both (limits.getD i 0), none⟩] (LoopExit.left i)
        (both (limits.getD i 0))
  | failed (fuel i : Nat) (nf : rlimit) (e : Nat) (h1 : e ≠ EPERM) (h2 : e ≠ EINVAL) :
      LoopRun limits (fuel + 1) i nf [⟨both (limits.getD i 0), some e⟩]
        (LoopExit.returned (-1)) nf
  | retried (fuel i : Nat) (nf : rlimit) (e : Nat) (h : e = EPERM ∨ e = EINVAL)
      (tr : List Attempt) (ex : LoopExit) (nf1 : rlimit)
      (rest : LoopRun limits fuel (i + 1) nf tr ex nf1) :
      LoopRun limits (fuel + 1) i nf (⟨both (limits.getD i 0), some e⟩ :: tr) ex nf1

instance (a : Attempt) : Decidable a.soft_refused := by
  unfold Attempt.soft_refused
  infer_instance

/-! ## Sample environments -/

/-- A kernel that answers the calls of one run from a list: the n-th call gets the
n-th answer, and calls beyond the list are accepted. -/
def scripted (answers : List (Option Nat)) : Setter :=
  fun os _ => answers.getD os.calls.length none

/-- A process with soft limit 5 and hard limit 10 on a Linux box with the default
port range and TIME_WAIT reuse switched off. -/
def sample_os : OS :=
  { nofile := ⟨5, 10⟩
    getrlimit_ret := 0
    sysconf_open_max := 4096
    OPEN_MAX := none
    port_range := some [32768, 60999]
    tw_reuse := some [0]
    errno := 0
    calls := []
    stderr := [] }

/-- A process whose limits are 65536 on a box without the two `/proc` files. -/
def roomy_os : OS :=
  { nofile := ⟨65536, 65536⟩
    getrlimit_ret := 0
    sysconf_open_max := 65536
    OPEN_MAX := none
    port_range := none
    tw_reuse := none
    errno := 0
    calls := []
    stderr := [] }

/-- The first source of the candidate list: the hard limit, or the system-wide
maximum when the hard limit is unlimited. -/
def hard_ceiling (os : OS) : Nat :=
  if os.nofile.rlim_max ≠ RLIM_INFINITY then os.nofile.rlim_max else (max_open_files os).1

/-- Whether the port range block flags: two integers were read and their machine
difference is below the connection count. -/
def port_range_narrow (expected_sockets : Int) : Option (List Int) → Bool
  | some (lo :: hi :: _) => decide (int_sub hi lo < expected_sockets)
  | _ => false

/-- Whether the TIME_WAIT block flags: an integer other than 1 was read and more than
one connection is expected. -/
def time_wait_off (expected_sockets : Int) : Option (List Int) → Bool
  | some (flag :: _) => decide (flag ≠ 1 ∧ expected_sockets > 1)
  | _ => false

/-- A `/proc` source from which fewer than `n` integers can be had: the file cannot
be opened, or it holds fewer than `n` leading integers. -/
def source_unavailable (n : Nat) (f : Option (List Int)) : Prop :=
  f = none ∨ ∃ xs, f = some xs ∧ xs.length < n

instance (n : Nat) (f : Option (List Int)) : Decidable (source_unavailable n f) :=
  match f with
  | none => isTrue (Or.inl rfl)
  | some xs =>
    if h : xs.length < n then isTrue (Or.inr ⟨xs, rfl, h⟩)
    else isFalse (by
      rintro (h1 | ⟨ys, h1, h2⟩)
      · cases h1
      · cases h1; exact h h2)

/-- A Linux box with limits 65536, the default port range and TIME_WAIT reuse on. -/
def linux_os : OS :=
  { nofile := ⟨65536, 65536⟩
    getrlimit_ret := 0
    sysconf_open_max := 65536
    OPEN_MAX := none
    port_range := some [32768, 60999]
    tw_reuse := some [1]
    errno := 0
    calls := []
    stderr := [] }

/-- Largest value of a C `long`. -/
def LONG_MAX : Int := 9223372036854775807

/-- The lines the first block of the audit writes in state `os`. -/
def open_files_lines (expected_sockets workers : Int) (os : OS) : List Msg :=
  if os.nofile.rlim_cur < to_rlim_t (int_add (int_add expected_sockets 4) workers) then
    [Msg.warn_open_files (to_long os.nofile.rlim_cur) expected_sockets]
  else
    (if os.sysconf_open_max = -1 then [Msg.perror_sysconf] else []) ++
      (if (max_open_files os).1 < to_rlim_t (int_add (int_add expected_sockets 4) workers) then
        [Msg.warn_system_wide (to_long os.nofile.rlim_cur) expected_sockets]
      else [])

/-- The lines the port range block writes for a given port range file. -/
def port_range_lines (expected_sockets : Int) : Option (List Int) → List Msg
  | some (lo :: hi :: _) =>
    if int_sub hi lo < expected_sockets then [Msg.warn_port_range expected_sockets lo hi]
    else []
  | _ => []

/-- The lines the TIME_WAIT block writes for a given flag file. -/
def time_wait_lines (expected_sockets : Int) : Option (List Int) → List Msg
  | some (flag :: _) =>
    if flag ≠ 1 ∧ expected_sockets > 1 then [Msg.warn_time_wait expected_sockets] else []
  | _ => []

/-- A Linux box on which both the process limit (8) and the system-wide maximum (12)
are too low for 10 connections and 2 workers. -/
def starved_os : OS :=
  { linux_os with nofile := ⟨8, 65536⟩, sysconf_open_max := 12 }

/-- A Linux box whose process limit is 65536 and whose system-wide maximum is 4096. -/
def capped_os : OS :=
  { linux_os with sysconf_open_max := 4096 }

/-- A platform whose headers define `OPEN_MAX` as 10240 and on which
`sysconf(_SC_OPEN_MAX)` fails. -/
def darwin_os : OS :=
  { roomy_os with sysconf_open_max := -1, OPEN_MAX := some 10240 }

/-! ## Machine arithmetic on the range where it is exact -/

theorem wrap_int_of_range (x : Int) (h1 : INT_MIN ≤ x) (h2 : x ≤ INT_MAX) : wrap_int x = x := by
  unfold wrap_int; unfold INT_MIN at h1; unfold INT_MAX at h2; omega

theorem min_viable_eq (es w : Int) (h1 : 0 ≤ es) (h2 : 0 ≤ w) (h3 : es + 4 + w ≤ INT_MAX) :
    (to_rlim_t (int_add (int_add es 4) w) : Int) = es + 4 + w := by
  unfold to_rlim_t int_add wrap_int; unfold INT_MAX at h3; omega

theorem generous_eq (es w : Int) (h1 : 0 ≤ es) (h2 : 0 ≤ w) (h3 : es + 100 + w ≤ INT_MAX) :
    (to_rlim_t (int_add (int_add es 100) w) : Int) = es + 100 + w := by
  unfold to_rlim_t int_add wrap_int; unfold INT_MAX at h3; omega

theorem to_size_t_eq (x : Int) : to_size_t x = to_rlim_t x := rfl

/-! ## Sorting the candidates -/

theorem compare_rlimits_le (a b : Nat) : compare_rlimits a b ≤ 0 ↔ b ≤ a := by
  unfold compare_rlimits
  split_ifs <;> omega

theorem qsort_perm (cmp : Nat → Nat → Int) (xs : List Nat) : (qsort cmp xs).Perm xs :=
  List.perm_insertionSort _ xs

theorem qsort_three (a b c : Nat) :
    ∃ x y z, qsort compare_rlimits [a, b, c] = [x, y, z] ∧ y ≤ x ∧ z ≤ y := by
  simp only [qsort, List.insertionSort, List.orderedInsert, compare_rlimits_le]
  by_cases h1 : c ≤ b <;> by_cases h2 : c ≤ a <;> by_cases h3 : b ≤ a <;>
    simp only [h1, h2, h3, if_true, if_false, List.orderedInsert] <;>
    exact ⟨_, _, _, rfl, by omega, by omega⟩

theorem sorted_limits_three (es w : Int) (os : OS) :
    ∃ x y z, sorted_limits es w os = [x, y, z] ∧ y ≤ x ∧ z ≤ y := by
  unfold sorted_limits candidate_limits limits_init
  exact qsort_three _ _ _

theorem mem_sorted_limits (es w : Int) (os : OS) (c : Nat) :
    c ∈ sorted_limits es w os ↔ c ∈ candidate_limits es w os :=
  (qsort_perm _ _).mem_iff

/-- The first entry of the sorted list is a candidate and bounds every candidate. -/
theorem sorted_limits_head (es w : Int) (os : OS) :
    (sorted_limits es w os).getD 0 0 ∈ candidate_limits es w os ∧
      ∀ c ∈ candidate_limits es w os, c ≤ (sorted_limits es w os).getD 0 0 := by
  obtain ⟨x, y, z, h, hxy, hyz⟩ := sorted_limits_three es w os
  constructor
  · rw [← mem_sorted_limits, h]; simp
  · intro c hc
    rw [← mem_sorted_limits, h] at hc
    rw [h]
    simp at hc ⊢
    omega

/-- Every entry of the sorted list is a candidate. -/
theorem sorted_limits_getD_mem (es w : Int) (os : OS) (j : Nat) (hj : j < 3) :
    (sorted_limits es w os).getD j 0 ∈ candidate_limits es w os := by
  obtain ⟨x, y, z, h, -, -⟩ := sorted_limits_three es w os
  rw [← mem_sorted_limits, h]
  interval_cases j <;> simp

/-! ## The loop -/

theorem set_limits_loop_run (k : Setter) (limits : List Nat) (fuel : Nat) :
    ∀ (i : Nat) (os : OS), ∃ tr,
      (set_limits_loop k limits fuel i os).2.calls = os.calls ++ tr ∧
      LoopRun limits fuel i os.nofile tr (set_limits_loop k limits fuel i os).1
        (set_limits_loop k limits fuel i os).2.nofile := by
  induction fuel with
  | zero => intro i os; exact ⟨[], by simp [set_limits_loop], LoopRun.exhausted i os.nofile⟩
  | succ fuel ih =>
    intro i os
    simp only [set_limits_loop, setrlimit]
    cases hk : k os ⟨limits.getD i 0, limits.getD i 0⟩ with
    | none =>
      refine ⟨[⟨both (limits.getD i 0), none⟩], ?_, ?_⟩
      · simp [both]
      · simpa [both] using LoopRun.accepted fuel i os.nofile
    | some e =>
      by_cases he : e = EPERM ∨ e = EINVAL
      · simp only [he, if_true]
        obtain ⟨tr, h1, h2⟩ := ih (i + 1)
          { os with
            errno := e,
            calls := os.calls ++ [⟨⟨limits.getD i 0, limits.getD i 0⟩, some e⟩] }
        refine ⟨⟨both (limits.getD i 0), some e⟩ :: tr, ?_, ?_⟩
        · simpa [both] using h1
        · exact LoopRun.retried fuel i os.nofile e he tr _ _ h2
      · simp only [he, if_false]
        refine ⟨[⟨both (limits.getD i 0), some e⟩], ?_, ?_⟩
        · simp [both, fprintf_stderr]
        · have h1 : e ≠ EPERM := fun h => he (Or.inl h)
          have h2 : e ≠ EINVAL := fun h => he (Or.inr h)
          simpa [fprintf_stderr] using LoopRun.failed fuel i os.nofile e h1 h2

theorem LoopRun.length_le {limits : List Nat} {fuel i : Nat} {nf nf1 : rlimit}
    {tr : List Attempt} {ex : LoopExit} (h : LoopRun limits fuel i nf tr ex nf1) :
    tr.length ≤ fuel := by
  induction h with
  | exhausted => simp
  | accepted => simp
  | failed => simp
  | retried fuel i nf e h tr ex nf1 rest ih => simp; omega

/-- When every call of a run is refused with EPERM or EINVAL the loop runs to its end. -/
theorem LoopRun.all_soft {limits : List Nat} {fuel i : Nat} {nf nf1 : rlimit}
    {tr : List Attempt} {ex : LoopExit} (h : LoopRun limits fuel i nf tr ex nf1)
    (hall : ∀ a ∈ tr, a.soft_refused) :
    ex = LoopExit.left (i + fuel) ∧ tr.length = fuel ∧ nf1 = nf := by
  induction h with
  | exhausted => simp
  | accepted fuel i nf =>
    have := hall _ (List.mem_singleton_self _)
    simp [Attempt.soft_refused] at this
  | failed fuel i nf e h1 h2 =>
    have := hall _ (List.mem_singleton_self _)
    simp [Attempt.soft_refused] at this
    exact absurd this (by intro h; cases h <;> contradiction)
  | retried fuel i nf e h tr ex nf1 rest ih =>
    obtain ⟨a, b, c⟩ := ih (fun a ha => hall a (List.mem_cons_of_mem _ ha))
    refine ⟨?_, by simp [b], c⟩
    rw [a]; congr 1; omega

/-- When the first call of a run is accepted it is the only call. -/
theorem LoopRun.head_accepted {limits : List Nat} {fuel i : Nat} {nf nf1 : rlimit}
    {tr : List Attempt} {ex : LoopExit} (h : LoopRun limits fuel i nf tr ex nf1)
    (a : Attempt) (ha : tr.head? = some a) (hacc : a.refused = none) :
    ex = LoopExit.left i ∧ tr.length = 1 ∧ a.req = both (limits.getD i 0) := by
  cases h with
  | exhausted => simp at ha
  | accepted fuel i nf => simp at ha; subst ha; simp
  | failed fuel i nf e h1 h2 => simp at ha; subst ha; simp at hacc
  | retried fuel i nf e h tr ex nf1 rest => simp at ha; subst ha; simp at hacc

/-- An accepted call ends the loop at the index of its candidate. -/
theorem LoopRun.mem_accepted {limits : List Nat} {fuel i : Nat} {nf nf1 : rlimit}
    {tr : List Attempt} {ex : LoopExit} (h : LoopRun limits fuel i nf tr ex nf1)
    (a : Attempt) (ha : a ∈ tr) (hacc : a.refused = none) :
    ∃ j, i ≤ j ∧ j < i + fuel ∧ ex = LoopExit.left j ∧ a.req = both (limits.getD j 0) ∧
      nf1 = a.req := by
  induction h with
  | exhausted => simp at ha
  | accepted fuel i nf =>
    have hq := List.mem_singleton.mp ha
    subst hq
    exact ⟨i, le_refl _, by omega, rfl, rfl, rfl⟩
  | failed fuel i nf e h1 h2 => simp at ha; subst ha; simp at hacc
  | retried fuel i nf e h tr ex nf1 rest ih =>
    simp at ha
    rcases ha with ha | ha
    · subst ha; simp at hacc
    · obtain ⟨j, h1, h2, h3, h4, h5⟩ := ih ha
      exact ⟨j, by omega, by omega, h3, h4, h5⟩

/-- A call refused with another error number is the last call and the loop returns -1. -/
theorem LoopRun.hard_refused {limits : List Nat} {fuel i : Nat} {nf nf1 : rlimit}
    {tr : List Attempt} {ex : LoopExit} (h : LoopRun limits fuel i nf tr ex nf1) :
    ∀ (n : Nat) (a : Attempt) (e : Nat), tr[n]? = some a → a.refused = some e →
      e ≠ EPERM → e ≠ EINVAL →
      ex = LoopExit.returned (-1) ∧ n + 1 = tr.length ∧ nf1 = nf := by
  induction h with
  | exhausted => intro n a e ha; simp at ha
  | accepted fuel i nf =>
    intro n a e ha he
    cases n with
    | zero => simp at ha; subst ha; simp at he
    | succ n => simp at ha
  | failed fuel i nf e h1 h2 =>
    intro n a e1 ha he
    cases n with
    | zero => intros; simp
    | succ n => simp at ha
  | retried fuel i nf e h tr ex nf1 rest ih =>
    intro n a e1 ha he h1 h2
    cases n with
    | zero =>
      simp at ha; subst ha; simp at he; subst he
      rcases h with h | h <;> contradiction
    | succ n =>
      simp at ha
      obtain ⟨x, y, z⟩ := ih n a e1 ha he h1 h2
      exact ⟨x, by simp; omega, z⟩

/-! ## The negotiation -/

theorem max_open_files_frame (os : OS) :
    (max_open_files os).2.nofile = os.nofile ∧ (max_open_files os).2.calls = os.calls ∧
      (max_open_files os).2.getrlimit_ret = os.getrlimit_ret := by
  by_cases h : os.sysconf_open_max = -1 <;> simp [max_open_files, fprintf_stderr, h]

/-- The negotiation, with the loop result still to be analysed. -/
theorem adjust_eq (k : Setter) (es w : Int) (os : OS) (hq : os.getrlimit_ret = 0) :
    adjust_system_limits_for_highload k es w os =
      if os.nofile.rlim_cur ≥ (sorted_limits es w os).getD 0 0 then
        (some 0, (max_open_files os).2)
      else
        let r := set_limits_loop k (sorted_limits es w os) 3 0 (max_open_files os).2
        (some (exit_value es w (sorted_limits es w os) r.1),
          match r.1 with
          | LoopExit.returned _ => r.2
          | LoopExit.left i =>
            if i = 3 then
              fprintf_stderr r.2 (Msg.could_not_adjust (to_long os.nofile.rlim_cur)
                (to_long ((sorted_limits es w os).getD 2 0)))
            else if (sorted_limits es w os).getD i 0 <
                to_size_t (int_add (int_add es 4) w) then
              fprintf_stderr r.2 (Msg.adjusted_too_low (to_long os.nofile.rlim_cur)
                (to_long ((sorted_limits es w os).getD i 0)) es)
            else
              fprintf_stderr r.2 (Msg.adjusted (to_long os.nofile.rlim_cur)
                (to_long ((sorted_limits es w os).getD i 0)))) := by
  obtain ⟨h1, h2, h3⟩ := max_open_files_frame os
  unfold adjust_system_limits_for_highload
  simp only [getrlimit, h1, h3, hq, ne_eq, not_true_eq_false, if_false]
  unfold sorted_limits candidate_limits
  split_ifs with hsc
  · rfl
  · rcases hl : set_limits_loop k (qsort compare_rlimits
        (limits_init es w os.nofile (max_open_files os).1)) 3 0 (max_open_files os).2 with
      ⟨ex, os1⟩
    cases ex with
    | returned ret => simp [exit_value]
    | left i =>
      simp only [exit_value]
      split_ifs <;> rfl

/-- The short-circuit: nothing is called and the pair stays. -/
theorem adjust_short (k : Setter) (es w : Int) (os : OS) (hq : os.getrlimit_ret = 0)
    (hsc : (sorted_limits es w os).getD 0 0 ≤ os.nofile.rlim_cur) :
    (adjust_system_limits_for_highload k es w os).1 = some 0 ∧
      new_calls os (adjust_system_limits_for_highload k es w os).2 = [] ∧
      (adjust_system_limits_for_highload k es w os).2.nofile = os.nofile := by
  obtain ⟨h1, h2, -⟩ := max_open_files_frame os
  rw [adjust_eq k es w os hq, if_pos hsc]
  simp [new_calls, h1, h2]

/-- Past the short-circuit the negotiation is one run of the loop over the sorted
candidates, and its value is decided by how the loop was left. -/
theorem adjust_run (k : Setter) (es w : Int) (os : OS) (hq : os.getrlimit_ret = 0)
    (hsc : os.nofile.rlim_cur < (sorted_limits es w os).getD 0 0) :
    ∃ ex, LoopRun (sorted_limits es w os) 3 0 os.nofile
        (new_calls os (adjust_system_limits_for_highload k es w os).2) ex
        (adjust_system_limits_for_highload k es w os).2.nofile ∧
      (adjust_system_limits_for_highload k es w os).1 =
        some (exit_value es w (sorted_limits es w os) ex) := by
  obtain ⟨h1, h2, -⟩ := max_open_files_frame os
  obtain ⟨tr, hc, hr⟩ :=
    set_limits_loop_run k (sorted_limits es w os) 3 0 (max_open_files os).2
  rw [h1] at hr
  rw [h2] at hc
  rw [adjust_eq k es w os hq, if_neg (not_le.mpr hsc)]
  refine ⟨_, ?_, rfl⟩
  have e1 : ∀ os1 : OS, os1.calls = os.calls ++ tr → new_calls os os1 = tr := by
    intro os1 h; simp [new_calls, h]
  rcases hl : set_limits_loop k (sorted_limits es w os) 3 0 (max_open_files os).2 with
    ⟨ex, os1⟩
  rw [hl] at hc hr
  simp only at hc hr ⊢
  cases ex with
  | returned ret => simpa [e1 os1 hc] using hr
  | left i =>
    simp only
    split_ifs <;> simpa [fprintf_stderr, new_calls, hc] using hr

/-- The minimum viable candidate is one of the candidates. -/
theorem min_viable_mem (es w : Int) (os : OS) :
    to_rlim_t (int_add (int_add es 4) w) ∈ candidate_limits es w os := by
  simp [candidate_limits, limits_init]

/-- Either the short-circuit is taken or the soft limit is below the first entry. -/
theorem short_circuit_iff (es w : Int) (os : OS) :
    (sorted_limits es w os).getD 0 0 ≤ os.nofile.rlim_cur ↔
      ∀ c ∈ candidate_limits es w os, c ≤ os.nofile.rlim_cur := by
  obtain ⟨hm, hb⟩ := sorted_limits_head es w os
  constructor
  · intro h c hc; exact le_trans (hb c hc) h
  · intro h; exact h _ hm

/-- C1: when the soft limit is at least every candidate ceiling, the negotiation
returns 0, makes no `setrlimit` call and leaves the limit pair as it was. -/
theorem adjust_short_circuit (k : Setter) (es w : Int) (os : OS)
    (hq : os.getrlimit_ret = 0)
    (h : ∀ c ∈ candidate_limits es w os, c ≤ os.nofile.rlim_cur) :
    (adjust_system_limits_for_highload k es w os).1 = some 0 ∧
      new_calls os (adjust_system_limits_for_highload k es w os).2 = [] ∧
      (adjust_system_limits_for_highload k es w os).2.calls = os.calls ∧
      (adjust_system_limits_for_highload k es w os).2.nofile = os.nofile := by
  have hsc := (short_circuit_iff es w os).mpr h
  obtain ⟨a, b, c⟩ := adjust_short k es w os hq hsc
  refine ⟨a, b, ?_, c⟩
  obtain ⟨-, h2, -⟩ := max_open_files_frame os
  rw [adjust_eq k es w os hq, if_pos hsc]
  exact h2

theorem adjust_short_circuit_witness :
    roomy_os.getrlimit_ret = 0 ∧
      (∀ c ∈ candidate_limits 100 2 roomy_os, c ≤ roomy_os.nofile.rlim_cur) ∧
      (adjust_system_limits_for_highload (scripted []) 100 2 roomy_os).1 = some 0 ∧
      new_calls roomy_os (adjust_system_limits_for_highload (scripted []) 100 2 roomy_os).2
        = [] ∧
      (adjust_system_limits_for_highload (scripted []) 100 2 roomy_os).2.calls
        = roomy_os.calls ∧
      (adjust_system_limits_for_highload (scripted []) 100 2 roomy_os).2.nofile
        = roomy_os.nofile :=
  ⟨rfl, by decide, adjust_short_circuit (scripted []) 100 2 roomy_os rfl (by decide)⟩

/-- C2: past the short-circuit, when every `setrlimit` call made is refused with
EPERM or EINVAL, the negotiation returns -1 after exactly 3 calls. -/
theorem adjust_all_refused (k : Setter) (es w : Int) (os : OS)
    (hq : os.getrlimit_ret = 0)
    (hsc : ∃ c ∈ candidate_limits es w os, os.nofile.rlim_cur < c)
    (hrej : ∀ a ∈ new_calls os (adjust_system_limits_for_highload k es w os).2,
      a.soft_refused) :
    (adjust_system_limits_for_highload k es w os).1 = some (-1) ∧
      (new_calls os (adjust_system_limits_for_highload k es w os).2).length = 3 := by
  have hlt : os.nofile.rlim_cur < (sorted_limits es w os).getD 0 0 := by
    obtain ⟨c, hc, hlt⟩ := hsc
    exact lt_of_lt_of_le hlt ((sorted_limits_head es w os).2 c hc)
  obtain ⟨ex, hrun, hret⟩ := adjust_run k es w os hq hlt
  obtain ⟨hex, hlen, -⟩ := hrun.all_soft hrej
  refine ⟨?_, hlen⟩
  rw [hret, hex]
  simp [exit_value]

theorem adjust_all_refused_witness :
    sample_os.getrlimit_ret = 0 ∧
      (∃ c ∈ candidate_limits 100 1 sample_os, sample_os.nofile.rlim_cur < c) ∧
      (∀ a ∈ new_calls sample_os (adjust_system_limits_for_highload
          (scripted [some EPERM, some EINVAL, some EPERM]) 100 1 sample_os).2,
        a.soft_refused) ∧
      (adjust_system_limits_for_highload
          (scripted [some EPERM, some EINVAL, some EPERM]) 100 1 sample_os).1 = some (-1) ∧
      (new_calls sample_os (adjust_system_limits_for_highload
          (scripted [some EPERM, some EINVAL, some EPERM]) 100 1 sample_os).2).length = 3 :=
  ⟨rfl, by decide, by decide,
    adjust_all_refused (scripted [some EPERM, some EINVAL, some EPERM]) 100 1 sample_os rfl
      (by decide) (by decide)⟩

/-- Either the short-circuit is taken, with no call made, or the loop is run. -/
theorem adjust_cases (k : Setter) (es w : Int) (os : OS) (hq : os.getrlimit_ret = 0) :
    new_calls os (adjust_system_limits_for_highload k es w os).2 = [] ∨
      ∃ ex, LoopRun (sorted_limits es w os) 3 0 os.nofile
          (new_calls os (adjust_system_limits_for_highload k es w os).2) ex
          (adjust_system_limits_for_highload k es w os).2.nofile ∧
        (adjust_system_limits_for_highload k es w os).1 =
          some (exit_value es w (sorted_limits es w os) ex) := by
  by_cases hsc : (sorted_limits es w os).getD 0 0 ≤ os.nofile.rlim_cur
  · exact Or.inl (adjust_short k es w os hq hsc).2.1
  · exact Or.inr (adjust_run k es w os hq (not_le.mp hsc))

/-- C3: when the first `setrlimit` call made, which asks for the largest candidate, is
accepted, the negotiation returns 0 after exactly 1 call. -/
theorem adjust_first_accepted (k : Setter) (es w : Int) (os : OS)
    (hq : os.getrlimit_ret = 0) (a : Attempt)
    (ha : (new_calls os (adjust_system_limits_for_highload k es w os).2).head? = some a)
    (hacc : a.refused = none) :
    (adjust_system_limits_for_highload k es w os).1 = some 0 ∧
      (new_calls os (adjust_system_limits_for_highload k es w os).2).length = 1 ∧
      a.req.rlim_max = a.req.rlim_cur ∧
      a.req.rlim_cur ∈ candidate_limits es w os ∧
      ∀ c ∈ candidate_limits es w os, c ≤ a.req.rlim_cur := by
  rcases adjust_cases k es w os hq with h | ⟨ex, hrun, hret⟩
  · rw [h] at ha; simp at ha
  · obtain ⟨hex, hlen, hreq⟩ := hrun.head_accepted a ha hacc
    obtain ⟨hm, hb⟩ := sorted_limits_head es w os
    have hv := hb _ (min_viable_mem es w os)
    refine ⟨?_, hlen, ?_, ?_, ?_⟩
    · rw [hret, hex]
      simp only [exit_value, to_size_t_eq]
      rw [if_neg (by decide), if_neg (not_lt.mpr hv)]
    · rw [hreq]; rfl
    · rw [hreq]; exact hm
    · rw [hreq]; exact hb

theorem adjust_first_accepted_witness :
    sample_os.getrlimit_ret = 0 ∧
      (new_calls sample_os
          (adjust_system_limits_for_highload (scripted [none]) 100 1 sample_os).2).head?
        = some ⟨both 201, none⟩ ∧
      (adjust_system_limits_for_highload (scripted [none]) 100 1 sample_os).1 = some 0 ∧
      (new_calls sample_os
          (adjust_system_limits_for_highload (scripted [none]) 100 1 sample_os).2).length
        = 1 :=
  ⟨rfl, by decide,
    (adjust_first_accepted (scripted [none]) 100 1 sample_os rfl ⟨both 201, none⟩
      (by decide) rfl).1,
    (adjust_first_accepted (scripted [none]) 100 1 sample_os rfl ⟨both 201, none⟩
      (by decide) rfl).2.1⟩

theorem candidate_limits_eq (es w : Int) (os : OS) :
    candidate_limits es w os =
      [hard_ceiling os, to_rlim_t (int_add (int_add es 100) w),
        to_rlim_t (int_add (int_add es 4) w)] := rfl

/-- The sorted list of three values, spelled out. -/
theorem qsort_three_eq (a b c : Nat) :
    qsort compare_rlimits [a, b, c] =
      if c ≤ b then
        (if b ≤ a then [a, b, c] else if c ≤ a then [b, a, c] else [b, c, a])
      else
        (if c ≤ a then [a, c, b] else if b ≤ a then [c, a, b] else [c, b, a]) := by
  simp only [qsort, List.insertionSort, List.orderedInsert, compare_rlimits_le]
  by_cases h1 : c ≤ b <;> by_cases h2 : c ≤ a <;> by_cases h3 : b ≤ a <;>
    simp only [h1, h2, h3, if_true, if_false, List.orderedInsert]

/-- C4, at a low hard limit: with hard limit 10, 100 sockets and 1 worker the sorted
list is 201, 105, 10, so its third entry is not 100 + 4 + 1 and its second is not
100 + 100 + 1. -/
theorem candidate_list_low_hard_limit :
    sorted_limits 100 1 sample_os = [201, 105, 10] ∧
      ¬ ((sorted_limits 100 1 sample_os).length = 3 ∧
          (sorted_limits 100 1 sample_os).Sorted (fun a b => b ≤ a) ∧
          (((sorted_limits 100 1 sample_os).getD 2 0 : Nat) : Int) = 100 + 4 + 1 ∧
          (((sorted_limits 100 1 sample_os).getD 1 0 : Nat) : Int) = 100 + 100 + 1) := by
  refine ⟨by decide, ?_⟩
  intro h
  exact absurd h.2.2.1 (by decide)

/-- C4, amended: the sorted candidate list has 3 entries in descending order, and its
third entry is `es + 4 + w` and its second `es + 100 + w` exactly when the hard
ceiling (hard limit, or system maximum when the hard limit is unlimited) is at
least `es + 100 + w`. -/
theorem candidate_list_shape (es w : Int) (os : OS)
    (h1 : 0 ≤ es) (h2 : 0 ≤ w) (h3 : es + 100 + w ≤ INT_MAX) :
    (sorted_limits es w os).length = 3 ∧
      (sorted_limits es w os).Sorted (fun a b => b ≤ a) ∧
      (((((sorted_limits es w os).getD 2 0 : Nat) : Int) = es + 4 + w ∧
          (((sorted_limits es w os).getD 1 0 : Nat) : Int) = es + 100 + w) ↔
        es + 100 + w ≤ (hard_ceiling os : Int)) := by
  have hG := generous_eq es w h1 h2 h3
  have hM := min_viable_eq es w h1 h2 (by omega)
  refine ⟨?_, ?_, ?_⟩
  · obtain ⟨x, y, z, h, -, -⟩ := sorted_limits_three es w os
    rw [h]; rfl
  · obtain ⟨x, y, z, h, hxy, hyz⟩ := sorted_limits_three es w os
    rw [h]
    simp [List.Sorted]
    omega
  · unfold sorted_limits
    rw [candidate_limits_eq, qsort_three_eq]
    generalize to_rlim_t (int_add (int_add es 100) w) = G at hG
    generalize to_rlim_t (int_add (int_add es 4) w) = M at hM
    generalize hard_ceiling os = H
    split_ifs <;> simp <;> omega

theorem candidate_list_shape_witness :
    (0 : Int) ≤ 100 ∧ (0 : Int) ≤ 1 ∧ (100 : Int) + 100 + 1 ≤ INT_MAX ∧
      (sorted_limits 100 1 roomy_os).length = 3 ∧
      (sorted_limits 100 1 roomy_os).Sorted (fun a b => b ≤ a) ∧
      (((((sorted_limits 100 1 roomy_os).getD 2 0 : Nat) : Int) = 100 + 4 + 1 ∧
          (((sorted_limits 100 1 roomy_os).getD 1 0 : Nat) : Int) = 100 + 100 + 1) ↔
        (100 : Int) + 100 + 1 ≤ (hard_ceiling roomy_os : Int)) :=
  ⟨by decide, by decide, by decide,
    candidate_list_shape 100 1 roomy_os (by decide) (by decide) (by decide)⟩

/-- C5: when a `setrlimit` call made by the negotiation is accepted for the value `v`,
the negotiation returns -1 if `v < es + 4 + w` and 0 if `v ≥ es + 4 + w`. -/
theorem adjust_accepted_value (k : Setter) (es w : Int) (os : OS)
    (hq : os.getrlimit_ret = 0)
    (h1 : 0 ≤ es) (h2 : 0 ≤ w) (h3 : es + 4 + w ≤ INT_MAX) (a : Attempt)
    (ha : a ∈ new_calls os (adjust_system_limits_for_highload k es w os).2)
    (hacc : a.refused = none) :
    a.req.rlim_cur ∈ candidate_limits es w os ∧
      ((a.req.rlim_cur : Int) < es + 4 + w →
        (adjust_system_limits_for_highload k es w os).1 = some (-1)) ∧
      (es + 4 + w ≤ (a.req.rlim_cur : Int) →
        (adjust_system_limits_for_highload k es w os).1 = some 0) := by
  have hM := min_viable_eq es w h1 h2 h3
  rcases adjust_cases k es w os hq with h | ⟨ex, hrun, hret⟩
  · rw [h] at ha; simp at ha
  · obtain ⟨j, -, hj, hex, hreq, -⟩ := hrun.mem_accepted a ha hacc
    have hj3 : j ≠ 3 := by omega
    rw [hret, hex, hreq]
    simp only [exit_value, to_size_t_eq, both, if_neg hj3]
    refine ⟨sorted_limits_getD_mem es w os j (by omega), ?_, ?_⟩
    · intro hlt
      rw [if_pos (by omega)]
    · intro hge
      rw [if_neg (by omega)]

theorem adjust_accepted_value_witness :
    sample_os.getrlimit_ret = 0 ∧ (0 : Int) ≤ 100 ∧ (0 : Int) ≤ 1 ∧
      (100 : Int) + 4 + 1 ≤ INT_MAX ∧
      (⟨both 10, none⟩ : Attempt) ∈ new_calls sample_os (adjust_system_limits_for_highload
          (scripted [some EPERM, some EPERM, none]) 100 1 sample_os).2 ∧
      (adjust_system_limits_for_highload
          (scripted [some EPERM, some EPERM, none]) 100 1 sample_os).1 = some (-1) :=
  ⟨rfl, by decide, by decide, by decide, by decide,
    (adjust_accepted_value (scripted [some EPERM, some EPERM, none]) 100 1 sample_os rfl
      (by decide) (by decide) (by decide) ⟨both 10, none⟩ (by decide) rfl).2.1
      (by decide)⟩

/-- C6: when a `setrlimit` call made by the negotiation is refused with an error number
other than EPERM and EINVAL, the negotiation returns -1 and that call is the last
one made. -/
theorem adjust_hard_error (k : Setter) (es w : Int) (os : OS)
    (hq : os.getrlimit_ret = 0) (n : Nat) (a : Attempt) (e : Nat)
    (ha : (new_calls os (adjust_system_limits_for_highload k es w os).2)[n]? = some a)
    (he : a.refused = some e) (hp : e ≠ EPERM) (hi : e ≠ EINVAL) :
    (adjust_system_limits_for_highload k es w os).1 = some (-1) ∧
      n + 1 = (new_calls os (adjust_system_limits_for_highload k es w os).2).length := by
  rcases adjust_cases k es w os hq with h | ⟨ex, hrun, hret⟩
  · rw [h] at ha; simp at ha
  · obtain ⟨hex, hlen, -⟩ := hrun.hard_refused n a e ha he hp hi
    refine ⟨?_, hlen⟩
    rw [hret, hex]
    rfl

theorem adjust_hard_error_witness :
    sample_os.getrlimit_ret = 0 ∧
      (new_calls sample_os (adjust_system_limits_for_highload
          (scripted [some EPERM, some 12, none]) 100 1 sample_os).2)[1]?
        = some ⟨both 105, some 12⟩ ∧
      (12 : Nat) ≠ EPERM ∧ (12 : Nat) ≠ EINVAL ∧
      (adjust_system_limits_for_highload
          (scripted [some EPERM, some 12, none]) 100 1 sample_os).1 = some (-1) ∧
      1 + 1 = (new_calls sample_os (adjust_system_limits_for_highload
          (scripted [some EPERM, some 12, none]) 100 1 sample_os).2).length :=
  ⟨rfl, by decide, by decide, by decide,
    adjust_hard_error (scripted [some EPERM, some 12, none]) 100 1 sample_os rfl 1
      ⟨both 105, some 12⟩ 12 (by decide) rfl (by decide) (by decide)⟩

/-! ## The audit -/

theorem max_open_files_env (os : OS) :
    (max_open_files os).2.port_range = os.port_range ∧
      (max_open_files os).2.tw_reuse = os.tw_reuse := by
  by_cases h : os.sysconf_open_max = -1 <;> simp [max_open_files, fprintf_stderr, h]

theorem check_open_files_val (es w : Int) (rlp : rlimit) (rv : Int) (os : OS) :
    (check_open_files es w rlp rv os).1 =
      if rlp.rlim_cur < to_rlim_t (int_add (int_add es 4) w) ∨
          (max_open_files os).1 < to_rlim_t (int_add (int_add es 4) w) then -1 else rv := by
  unfold check_open_files
  by_cases a : rlp.rlim_cur < to_rlim_t (int_add (int_add es 4) w) <;>
    by_cases b : (max_open_files os).1 < to_rlim_t (int_add (int_add es 4) w) <;>
    simp [a, b]

theorem check_open_files_frame (es w : Int) (rlp : rlimit) (rv : Int) (os : OS) :
    (check_open_files es w rlp rv os).2.port_range = os.port_range ∧
      (check_open_files es w rlp rv os).2.tw_reuse = os.tw_reuse := by
  obtain ⟨h1, h2⟩ := max_open_files_env os
  unfold check_open_files
  by_cases a : rlp.rlim_cur < to_rlim_t (int_add (int_add es 4) w) <;>
    by_cases b : (max_open_files os).1 < to_rlim_t (int_add (int_add es 4) w) <;>
    simp [a, b, fprintf_stderr, h1, h2]

theorem check_port_range_val (es rv : Int) (os : OS) :
    (check_port_range es rv os).1 = if port_range_narrow es os.port_range then -1 else rv := by
  unfold check_port_range port_range_narrow
  rcases hp : os.port_range with _ | (_ | ⟨lo, _ | ⟨hi, rest⟩⟩) <;> simp [fscanf_d_d]
  split_ifs <;> rfl

theorem check_port_range_frame (es rv : Int) (os : OS) :
    (check_port_range es rv os).2.tw_reuse = os.tw_reuse := by
  unfold check_port_range
  rcases hp : os.port_range with _ | (_ | ⟨lo, _ | ⟨hi, rest⟩⟩) <;> simp [fscanf_d_d]
  split_ifs <;> simp [fprintf_stderr]

theorem check_time_wait_val (es rv : Int) (os : OS) :
    (check_time_wait es rv os).1 = if time_wait_off es os.tw_reuse then -1 else rv := by
  unfold check_time_wait time_wait_off
  rcases hp : os.tw_reuse with _ | (_ | ⟨flag, rest⟩) <;> simp [fscanf_d]
  split_ifs <;> simp_all

/-- The value of the audit in terms of the four conditions the code tests. -/
theorem check_ret (es w : Int) (os : OS) (hq : os.getrlimit_ret = 0) :
    (check_system_limits_sanity es w os).1 =
      some (if time_wait_off es os.tw_reuse then -1
        else if port_range_narrow es os.port_range then -1
        else if os.nofile.rlim_cur < to_rlim_t (int_add (int_add es 4) w) ∨
          (max_open_files os).1 < to_rlim_t (int_add (int_add es 4) w) then -1
        else 0) := by
  unfold check_system_limits_sanity
  simp only [getrlimit, hq, ne_eq, not_true_eq_false, if_false]
  rw [check_time_wait_val, check_port_range_val, check_open_files_val,
    check_port_range_frame, (check_open_files_frame _ _ _ _ _).1,
    (check_open_files_frame _ _ _ _ _).2]

theorem port_range_narrow_iff (es : Int) (f : Option (List Int)) :
    port_range_narrow es f = true ↔
      ∃ lo hi rest, f = some (lo :: hi :: rest) ∧ int_sub hi lo < es := by
  unfold port_range_narrow
  rcases f with _ | (_ | ⟨lo, _ | ⟨hi, rest⟩⟩) <;> simp
  constructor
  · intro h; exact ⟨lo, hi, ⟨rfl, rfl⟩, h⟩
  · rintro ⟨a, b, ⟨rfl, rfl⟩, h⟩; exact h

theorem time_wait_off_iff (es : Int) (f : Option (List Int)) :
    time_wait_off es f = true ↔
      ∃ flag rest, f = some (flag :: rest) ∧ flag ≠ 1 ∧ 1 < es := by
  unfold time_wait_off
  rcases f with _ | (_ | ⟨flag, rest⟩) <;> simp

theorem port_range_narrow_unavailable (es : Int) (f : Option (List Int))
    (h : source_unavailable 2 f) : port_range_narrow es f = false := by
  unfold port_range_narrow
  rcases f with _ | (_ | ⟨lo, _ | ⟨hi, rest⟩⟩) <;> simp
  rcases h with h | ⟨xs, h1, h2⟩
  · cases h
  · cases h1; simp at h2; omega

theorem time_wait_off_unavailable (es : Int) (f : Option (List Int))
    (h : source_unavailable 1 f) : time_wait_off es f = false := by
  unfold time_wait_off
  rcases f with _ | (_ | ⟨flag, rest⟩) <;> simp
  rcases h with h | ⟨xs, h1, h2⟩
  · cases h
  · cases h1; simp at h2

/-- The value of the audit in terms of the four conditions, on inputs whose machine
sums are exact. -/
theorem check_ret_exact (es w : Int) (os : OS) (hq : os.getrlimit_ret = 0)
    (h1 : 0 ≤ es) (h2 : 0 ≤ w) (h3 : es + 4 + w ≤ INT_MAX)
    (hport : ∀ lo hi rest, os.port_range = some (lo :: hi :: rest) →
      INT_MIN ≤ hi - lo ∧ hi - lo ≤ INT_MAX) :
    ((check_system_limits_sanity es w os).1 = some (-1) ↔
        ((os.nofile.rlim_cur : Int) < es + 4 + w ∨
          (((max_open_files os).1 : Nat) : Int) < es + 4 + w ∨
          (∃ lo hi rest, os.port_range = some (lo :: hi :: rest) ∧ hi - lo < es) ∨
          (∃ flag rest, os.tw_reuse = some (flag :: rest) ∧ flag ≠ 1 ∧ 1 < es))) ∧
      ((check_system_limits_sanity es w os).1 = some (-1) ∨
        (check_system_limits_sanity es w os).1 = some 0) := by
  have hM := min_viable_eq es w h1 h2 h3
  have hP : port_range_narrow es os.port_range = true ↔
      ∃ lo hi rest, os.port_range = some (lo :: hi :: rest) ∧ hi - lo < es := by
    rw [port_range_narrow_iff]
    constructor
    · rintro ⟨lo, hi, rest, hp, hlt⟩
      obtain ⟨ha, hb⟩ := hport lo hi rest hp
      exact ⟨lo, hi, rest, hp, by rw [int_sub, wrap_int_of_range _ ha hb] at hlt; exact hlt⟩
    · rintro ⟨lo, hi, rest, hp, hlt⟩
      obtain ⟨ha, hb⟩ := hport lo hi rest hp
      exact ⟨lo, hi, rest, hp, by rw [int_sub, wrap_int_of_range _ ha hb]; exact hlt⟩
  have hT := time_wait_off_iff es os.tw_reuse
  rw [check_ret es w os hq]
  generalize to_rlim_t (int_add (int_add es 4) w) = M at hM
  rw [← hP, ← hT]
  constructor
  · split_ifs with a b c
    · simp [a]
    · simp [a, b]
    · simp only [a, b, true_iff]
      rcases c with c | c
      · left; omega
      · right; left; omega
    · simp only [a, b]
      push_neg at c
      constructor
      · intro h; simp at h
      · rintro (h | h | h | h)
        · omega
        · omega
        · simp at h
        · simp at h
  · split_ifs <;> simp

/-- C7: the audit returns -1 exactly when the soft limit is below `es + 4 + w`, or the
system-wide maximum is, or the port range is readable and `hi - lo < es`, or the
TIME_WAIT flag is readable, is not 1 and `es > 1`; otherwise it returns 0. -/
theorem check_unsane_iff (es w : Int) (os : OS) (hq : os.getrlimit_ret = 0)
    (h1 : 0 ≤ es) (h2 : 0 ≤ w) (h3 : es + 4 + w ≤ INT_MAX)
    (hport : ∀ lo hi rest, os.port_range = some (lo :: hi :: rest) →
      INT_MIN ≤ hi - lo ∧ hi - lo ≤ INT_MAX) :
    ((check_system_limits_sanity es w os).1 = some (-1) ↔
        ((os.nofile.rlim_cur : Int) < es + 4 + w ∨
          (((max_open_files os).1 : Nat) : Int) < es + 4 + w ∨
          (∃ lo hi rest, os.port_range = some (lo :: hi :: rest) ∧ hi - lo < es) ∨
          (∃ flag rest, os.tw_reuse = some (flag :: rest) ∧ flag ≠ 1 ∧ 1 < es))) ∧
      ((check_system_limits_sanity es w os).1 = some (-1) ∨
        (check_system_limits_sanity es w os).1 = some 0) :=
  check_ret_exact es w os hq h1 h2 h3 hport

theorem check_unsane_iff_witness :
    linux_os.getrlimit_ret = 0 ∧ (0 : Int) ≤ 50000 ∧ (0 : Int) ≤ 2 ∧
      (50000 : Int) + 4 + 2 ≤ INT_MAX ∧
      (∀ lo hi rest, linux_os.port_range = some (lo :: hi :: rest) →
        INT_MIN ≤ hi - lo ∧ hi - lo ≤ INT_MAX) ∧
      (check_system_limits_sanity 50000 2 linux_os).1 = some (-1) :=
  have hp : ∀ lo hi rest, linux_os.port_range = some (lo :: hi :: rest) →
      INT_MIN ≤ hi - lo ∧ hi - lo ≤ INT_MAX := by
    intro lo hi rest h
    simp only [linux_os, Option.some.injEq, List.cons.injEq] at h
    obtain ⟨rfl, rfl, -⟩ := h
    decide
  ⟨rfl, by decide, by decide, by decide, hp,
    (check_unsane_iff 50000 2 linux_os rfl (by decide) (by decide) (by decide) hp).1.mpr
      (Or.inr (Or.inr (Or.inl ⟨32768, 60999, [], rfl, by decide⟩)))⟩

theorem check_open_files_port (es w : Int) (rlp : rlimit) (rv : Int) (os : OS)
    (p : Option (List Int)) :
    check_open_files es w rlp rv { os with port_range := p } =
      ((check_open_files es w rlp rv os).1,
        { (check_open_files es w rlp rv os).2 with port_range := p }) := by
  unfold check_open_files max_open_files fprintf_stderr
  by_cases a : rlp.rlim_cur < to_rlim_t (int_add (int_add es 4) w) <;>
    by_cases h : os.sysconf_open_max = -1 <;>
    simp only [a, h, if_true, if_false, ne_eq, not_true_eq_false, not_false_eq_true] <;>
    split_ifs <;> rfl

theorem check_time_wait_port (es rv : Int) (os : OS) (p : Option (List Int)) :
    check_time_wait es rv { os with port_range := p } =
      ((check_time_wait es rv os).1, { (check_time_wait es rv os).2 with port_range := p }) := by
  obtain ⟨nf, gr, sc, om, pr, tw, en, cl, se⟩ := os
  unfold check_time_wait fprintf_stderr
  rcases tw with _ | (_ | ⟨flag, rest⟩) <;> simp [fscanf_d]
  split_ifs <;> simp

/-- The audit past its assertion: the three blocks in sequence. -/
theorem check_unfold (es w : Int) (os : OS) (hq : os.getrlimit_ret = 0) :
    check_system_limits_sanity es w os =
      (some (check_time_wait es
          (check_port_range es (check_open_files es w os.nofile 0 os).1
            (check_open_files es w os.nofile 0 os).2).1
          (check_port_range es (check_open_files es w os.nofile 0 os).1
            (check_open_files es w os.nofile 0 os).2).2).1,
        (check_time_wait es
          (check_port_range es (check_open_files es w os.nofile 0 os).1
            (check_open_files es w os.nofile 0 os).2).1
          (check_port_range es (check_open_files es w os.nofile 0 os).1
            (check_open_files es w os.nofile 0 os).2).2).2) := by
  unfold check_system_limits_sanity
  simp [getrlimit, hq]

/-- When the port range block does not flag, the audit returns what it returns, and
writes what it writes, with the port range file absent. -/
theorem check_port_range_silent (es w : Int) (os : OS)
    (hn : port_range_narrow es os.port_range = false) :
    (check_system_limits_sanity es w os).1 =
        (check_system_limits_sanity es w { os with port_range := none }).1 ∧
      (check_system_limits_sanity es w os).2.stderr =
        (check_system_limits_sanity es w { os with port_range := none }).2.stderr := by
  have hb : ∀ (rv : Int) (o : OS), o.port_range = os.port_range →
      check_port_range es rv o = (rv, o) := by
    intro rv o ho
    unfold check_port_range
    rw [ho]
    unfold port_range_narrow at hn
    rcases hp : os.port_range with _ | (_ | ⟨lo, _ | ⟨hi, rest⟩⟩) <;>
      simp [fscanf_d_d, hp] at hn ⊢
    omega
  have hc : ∀ (rv : Int) (o : OS), o.port_range = none →
      check_port_range es rv o = (rv, o) := by
    intro rv o ho
    unfold check_port_range
    rw [ho]
  by_cases hq : os.getrlimit_ret = 0
  · have hq1 : ({ os with port_range := none } : OS).getrlimit_ret = 0 := hq
    rw [check_unfold es w os hq, check_unfold es w _ hq1]
    rw [check_open_files_port es w os.nofile 0 os none]
    have hA := (check_open_files_frame es w os.nofile 0 os).1
    generalize check_open_files es w os.nofile 0 os = A at hA ⊢
    obtain ⟨rv, o⟩ := A
    simp only at hA ⊢
    rw [hb rv o hA, hc rv { o with port_range := none } rfl,
      check_time_wait_port es rv o none]
    exact ⟨rfl, rfl⟩
  · unfold check_system_limits_sanity
    simp [getrlimit, hq]

/-- C8: with a port range file that yields two integers `lo hi`, the audit returns -1
whenever `hi - lo < es`; when `hi - lo ≥ es` the port range check does not flag: the
audit returns and writes what it does with the file absent. -/
theorem check_port_range_width (es w : Int) (os : OS) (lo hi : Int) (rest : List Int)
    (hq : os.getrlimit_ret = 0) (hp : os.port_range = some (lo :: hi :: rest))
    (hr1 : INT_MIN ≤ hi - lo) (hr2 : hi - lo ≤ INT_MAX) :
    (hi - lo < es → (check_system_limits_sanity es w os).1 = some (-1)) ∧
      (es ≤ hi - lo →
        (check_system_limits_sanity es w os).1 =
            (check_system_limits_sanity es w { os with port_range := none }).1 ∧
          (check_system_limits_sanity es w os).2.stderr =
            (check_system_limits_sanity es w { os with port_range := none }).2.stderr) := by
  have hw : int_sub hi lo = hi - lo := wrap_int_of_range _ hr1 hr2
  constructor
  · intro hlt
    have hn : port_range_narrow es os.port_range = true := by
      rw [hp]; simp [port_range_narrow, hw, hlt]
    rw [check_ret es w os hq, hn]
    simp
  · intro hge
    apply check_port_range_silent
    rw [hp]
    simp [port_range_narrow, hw, hge]

theorem check_port_range_width_witness :
    linux_os.getrlimit_ret = 0 ∧ linux_os.port_range = some [32768, 60999] ∧
      INT_MIN ≤ (60999 : Int) - 32768 ∧ (60999 : Int) - 32768 ≤ INT_MAX ∧
      (60999 : Int) - 32768 < 50000 ∧ (1000 : Int) ≤ 60999 - 32768 ∧
      (check_system_limits_sanity 50000 2 linux_os).1 = some (-1) ∧
      (check_system_limits_sanity 1000 2 linux_os).1 =
        (check_system_limits_sanity 1000 2 { linux_os with port_range := none }).1 ∧
      (check_system_limits_sanity 1000 2 linux_os).1 = some 0 :=
  ⟨rfl, rfl, by decide, by decide, by decide, by decide,
    (check_port_range_width 50000 2 linux_os 32768 60999 [] rfl rfl (by decide)
      (by decide)).1 (by decide),
    ((check_port_range_width 1000 2 linux_os 32768 60999 [] rfl rfl (by decide)
      (by decide)).2 (by decide)).1,
    by decide⟩

/-- C9: when the two limit checks and the port range check pass and the TIME_WAIT flag
is readable but not 1, the audit returns 0 for `es ≤ 1` and -1 for `es > 1`. -/
theorem check_time_wait_single (es w : Int) (os : OS) (flag : Int) (rest : List Int)
    (hq : os.getrlimit_ret = 0)
    (h1 : 0 ≤ es) (h2 : 0 ≤ w) (h3 : es + 4 + w ≤ INT_MAX)
    (hsoft : es + 4 + w ≤ (os.nofile.rlim_cur : Int))
    (hmax : es + 4 + w ≤ (((max_open_files os).1 : Nat) : Int))
    (hport : ∀ lo hi more, os.port_range = some (lo :: hi :: more) →
      es ≤ hi - lo ∧ hi - lo ≤ INT_MAX)
    (htw : os.tw_reuse = some (flag :: rest)) (hflag : flag ≠ 1) :
    (es ≤ 1 → (check_system_limits_sanity es w os).1 = some 0) ∧
      (1 < es → (check_system_limits_sanity es w os).1 = some (-1)) := by
  have hr : ∀ lo hi more, os.port_range = some (lo :: hi :: more) →
      INT_MIN ≤ hi - lo ∧ hi - lo ≤ INT_MAX := by
    intro lo hi more h
    obtain ⟨a, b⟩ := hport lo hi more h
    exact ⟨by unfold INT_MIN; omega, b⟩
  obtain ⟨hiff, hor⟩ := check_ret_exact es w os hq h1 h2 h3 hr
  constructor
  · intro hle
    rcases hor with h | h
    · rcases hiff.mp h with c | c | ⟨lo, hi, more, c, d⟩ | ⟨f, r, c, d, e⟩
      · omega
      · omega
      · have := (hport lo hi more c).1; omega
      · omega
    · exact h
  · intro hlt
    exact hiff.mpr (Or.inr (Or.inr (Or.inr ⟨flag, rest, htw, hflag, hlt⟩)))

theorem check_time_wait_single_witness :
    linux_os.getrlimit_ret = 0 ∧
      (check_system_limits_sanity 1 2 { linux_os with tw_reuse := some [0] }).1 = some 0 ∧
      (check_system_limits_sanity 2 2 { linux_os with tw_reuse := some [0] }).1
        = some (-1) :=
  have hp : ∀ (es : Int), es ≤ 28231 → ∀ lo hi more,
      ({ linux_os with tw_reuse := some [0] } : OS).port_range = some (lo :: hi :: more) →
      es ≤ hi - lo ∧ hi - lo ≤ INT_MAX := by
    intro es hes lo hi more h
    simp only [linux_os, Option.some.injEq, List.cons.injEq] at h
    obtain ⟨rfl, rfl, -⟩ := h
    exact ⟨by omega, by decide⟩
  ⟨rfl,
    (check_time_wait_single 1 2 { linux_os with tw_reuse := some [0] } 0 [] rfl (by decide)
      (by decide) (by decide) (by decide) (by decide) (hp 1 (by decide)) rfl
      (by decide)).1 (by decide),
    (check_time_wait_single 2 2 { linux_os with tw_reuse := some [0] } 0 [] rfl (by decide)
      (by decide) (by decide) (by decide) (by decide) (hp 2 (by decide)) rfl
      (by decide)).2 (by decide)⟩

/-- C10: a port range or TIME_WAIT source that cannot be read contributes nothing.  With
both unavailable the audit returns -1 exactly when the soft limit or the system-wide
maximum is below `es + 4 + w`, and 0 otherwise; replacing a source of any
environment by an unavailable one never turns the result 0 into -1. -/
theorem check_sources_unavailable (es w : Int) (os : OS) (p t : Option (List Int))
    (hq : os.getrlimit_ret = 0)
    (h1 : 0 ≤ es) (h2 : 0 ≤ w) (h3 : es + 4 + w ≤ INT_MAX)
    (hp : source_unavailable 2 p) (ht : source_unavailable 1 t) :
    ((check_system_limits_sanity es w { os with port_range := p, tw_reuse := t }).1
          = some (-1) ↔
        ((os.nofile.rlim_cur : Int) < es + 4 + w ∨
          (((max_open_files os).1 : Nat) : Int) < es + 4 + w)) ∧
      ((check_system_limits_sanity es w { os with port_range := p, tw_reuse := t }).1
          = some (-1) ∨
        (check_system_limits_sanity es w { os with port_range := p, tw_reuse := t }).1
          = some 0) ∧
      ((check_system_limits_sanity es w os).1 = some 0 →
        (check_system_limits_sanity es w { os with port_range := p }).1 = some 0) ∧
      ((check_system_limits_sanity es w os).1 = some 0 →
        (check_system_limits_sanity es w { os with tw_reuse := t }).1 = some 0) ∧
      ((check_system_limits_sanity es w os).1 = some 0 →
        (check_system_limits_sanity es w { os with port_range := p, tw_reuse := t }).1
          = some 0) := by
  have hM := min_viable_eq es w h1 h2 h3
  have hP := port_range_narrow_unavailable es p hp
  have hT := time_wait_off_unavailable es t ht
  have hm : ∀ (a : Option (List Int)) (b : Option (List Int)),
      (max_open_files { os with port_range := a, tw_reuse := b }).1 = (max_open_files os).1 := by
    intro a b
    by_cases h : os.sysconf_open_max = -1 <;> simp [max_open_files, h]
  have e0 := check_ret es w os hq
  have e1 := check_ret es w { os with port_range := p } hq
  have e2 := check_ret es w { os with tw_reuse := t } hq
  have e3 := check_ret es w { os with port_range := p, tw_reuse := t } hq
  have m1 := hm p os.tw_reuse
  have m2 := hm os.port_range t
  have m3 := hm p t
  simp only [] at e1 e2 e3 m1 m2 m3
  rw [m1, hP] at e1
  rw [m2, hT] at e2
  rw [m3, hP, hT] at e3
  rw [e0, e1, e2, e3]
  generalize to_rlim_t (int_add (int_add es 4) w) = M at hM
  generalize (max_open_files os).1 = X
  generalize os.nofile.rlim_cur = S
  refine ⟨?_, ?_, ?_, ?_, ?_⟩
  · have hc : (S < M ∨ X < M) ↔ ((S : Int) < es + 4 + w ∨ (X : Int) < es + 4 + w) := by
      omega
    rw [← hc]
    by_cases c : S < M ∨ X < M <;> simp [c]
  · split_ifs <;> simp
  · split_ifs <;> simp_all
  · split_ifs <;> simp_all
  · split_ifs <;> simp_all

theorem check_sources_unavailable_witness :
    linux_os.getrlimit_ret = 0 ∧ (0 : Int) ≤ 50000 ∧ (0 : Int) ≤ 2 ∧
      (50000 : Int) + 4 + 2 ≤ INT_MAX ∧
      source_unavailable 2 (some [32768]) ∧ source_unavailable 1 none ∧
      (check_system_limits_sanity 50000 2
          { linux_os with port_range := some [32768], tw_reuse := none }).1 = some 0 :=
  ⟨rfl, by decide, by decide, by decide, by decide, by decide,
    ((check_sources_unavailable 50000 2 linux_os (some [32768]) none rfl (by decide)
      (by decide) (by decide) (by decide) (by decide)).2.1).resolve_left
      (fun h => absurd
        ((check_sources_unavailable 50000 2 linux_os (some [32768]) none rfl (by decide)
          (by decide) (by decide) (by decide) (by decide)).1.mp h)
        (by decide))⟩

/-! ## What the audit writes and what it leaves alone -/

theorem max_open_files_stderr (os : OS) :
    (max_open_files os).2.stderr =
      os.stderr ++ (if os.sysconf_open_max = -1 then [Msg.perror_sysconf] else []) := by
  by_cases h : os.sysconf_open_max = -1 <;> simp [max_open_files, fprintf_stderr, h]

theorem check_open_files_stderr (es w rv : Int) (os : OS) :
    (check_open_files es w os.nofile rv os).2.stderr =
      os.stderr ++ open_files_lines es w os := by
  have hm := max_open_files_stderr os
  unfold check_open_files open_files_lines
  by_cases a : os.nofile.rlim_cur < to_rlim_t (int_add (int_add es 4) w)
  · simp [a, fprintf_stderr]
  · by_cases b : (max_open_files os).1 < to_rlim_t (int_add (int_add es 4) w) <;>
      simp [a, b, fprintf_stderr, hm]

theorem check_port_range_stderr (es rv : Int) (os : OS) :
    (check_port_range es rv os).2.stderr = os.stderr ++ port_range_lines es os.port_range := by
  unfold check_port_range port_range_lines
  rcases hp : os.port_range with _ | (_ | ⟨lo, _ | ⟨hi, rest⟩⟩) <;> simp [fscanf_d_d]
  split_ifs <;> simp [fprintf_stderr]

theorem check_time_wait_stderr (es rv : Int) (os : OS) :
    (check_time_wait es rv os).2.stderr = os.stderr ++ time_wait_lines es os.tw_reuse := by
  unfold check_time_wait time_wait_lines
  rcases hp : os.tw_reuse with _ | (_ | ⟨flag, rest⟩) <;> simp [fscanf_d]
  split_ifs <;> simp [fprintf_stderr]

/-- The lines the audit writes: those of its three blocks, in order. -/
theorem check_stderr (es w : Int) (os : OS) (hq : os.getrlimit_ret = 0) :
    new_stderr os (check_system_limits_sanity es w os).2 =
      open_files_lines es w os ++ port_range_lines es os.port_range ++
        time_wait_lines es os.tw_reuse := by
  rw [check_unfold es w os hq]
  simp only [new_stderr]
  rw [check_time_wait_stderr, check_port_range_stderr, check_open_files_stderr,
    check_port_range_frame, (check_open_files_frame _ _ _ _ _).1,
    (check_open_files_frame _ _ _ _ _).2]
  simp

/-- None of the blocks of the audit touches the limit pair or calls `setrlimit`. -/
theorem check_blocks_frame (es w rv : Int) (rlp : rlimit) (os : OS) :
    ((check_open_files es w rlp rv os).2.nofile = os.nofile ∧
        (check_open_files es w rlp rv os).2.calls = os.calls) ∧
      ((check_port_range es rv os).2.nofile = os.nofile ∧
        (check_port_range es rv os).2.calls = os.calls) ∧
      ((check_time_wait es rv os).2.nofile = os.nofile ∧
        (check_time_wait es rv os).2.calls = os.calls) := by
  obtain ⟨m1, m2, -⟩ := max_open_files_frame os
  refine ⟨?_, ?_, ?_⟩
  · unfold check_open_files
    by_cases a : rlp.rlim_cur < to_rlim_t (int_add (int_add es 4) w) <;>
      by_cases b : (max_open_files os).1 < to_rlim_t (int_add (int_add es 4) w) <;>
      simp [a, b, fprintf_stderr, m1, m2]
  · unfold check_port_range
    rcases hp : os.port_range with _ | (_ | ⟨lo, _ | ⟨hi, rest⟩⟩) <;> simp [fscanf_d_d]
    split_ifs <;> simp [fprintf_stderr]
  · unfold check_time_wait
    rcases hp : os.tw_reuse with _ | (_ | ⟨flag, rest⟩) <;> simp [fscanf_d]
    split_ifs <;> simp [fprintf_stderr]

theorem mem_open_files_lines (es w : Int) (os : OS) (m : Msg) :
    m ∈ open_files_lines es w os ↔
      (os.nofile.rlim_cur < to_rlim_t (int_add (int_add es 4) w) ∧
          m = Msg.warn_open_files (to_long os.nofile.rlim_cur) es) ∨
        (¬ os.nofile.rlim_cur < to_rlim_t (int_add (int_add es 4) w) ∧
          os.sysconf_open_max = -1 ∧ m = Msg.perror_sysconf) ∨
        (¬ os.nofile.rlim_cur < to_rlim_t (int_add (int_add es 4) w) ∧
          (max_open_files os).1 < to_rlim_t (int_add (int_add es 4) w) ∧
          m = Msg.warn_system_wide (to_long os.nofile.rlim_cur) es) := by
  unfold open_files_lines
  by_cases a : os.nofile.rlim_cur < to_rlim_t (int_add (int_add es 4) w) <;>
    by_cases b : (max_open_files os).1 < to_rlim_t (int_add (int_add es 4) w) <;>
    by_cases h : os.sysconf_open_max = -1 <;>
    simp [a, b, h]

theorem mem_port_range_lines (es : Int) (f : Option (List Int)) (m : Msg) :
    m ∈ port_range_lines es f ↔
      ∃ lo hi rest, f = some (lo :: hi :: rest) ∧ int_sub hi lo < es ∧
        m = Msg.warn_port_range es lo hi := by
  unfold port_range_lines
  rcases f with _ | (_ | ⟨lo, _ | ⟨hi, rest⟩⟩) <;> simp
  constructor
  · rintro ⟨h, rfl⟩; exact ⟨lo, hi, ⟨rfl, rfl⟩, h, rfl⟩
  · rintro ⟨a, b, ⟨rfl, rfl⟩, h, rfl⟩; exact ⟨h, rfl⟩

theorem mem_time_wait_lines (es : Int) (f : Option (List Int)) (m : Msg) :
    m ∈ time_wait_lines es f ↔
      ∃ flag rest, f = some (flag :: rest) ∧ flag ≠ 1 ∧ 1 < es ∧
        m = Msg.warn_time_wait es := by
  unfold time_wait_lines
  rcases f with _ | (_ | ⟨flag, rest⟩) <;> simp
  tauto

/-- Membership in what the audit writes. -/
theorem mem_check_stderr (es w : Int) (os : OS) (hq : os.getrlimit_ret = 0) (m : Msg) :
    m ∈ new_stderr os (check_system_limits_sanity es w os).2 ↔
      m ∈ open_files_lines es w os ∨ m ∈ port_range_lines es os.port_range ∨
        m ∈ time_wait_lines es os.tw_reuse := by
  rw [check_stderr es w os hq]
  simp [or_assoc]

/-- C11: when the soft limit is below `es + 4 + w` the audit returns -1, whatever the
other three signals are, and writes the warning on the process limit. -/
theorem check_soft_limit_low (es w : Int) (os : OS) (hq : os.getrlimit_ret = 0)
    (h1 : 0 ≤ es) (h2 : 0 ≤ w) (h3 : es + 4 + w ≤ INT_MAX)
    (hlow : (os.nofile.rlim_cur : Int) < es + 4 + w) :
    (check_system_limits_sanity es w os).1 = some (-1) ∧
      Msg.warn_open_files (to_long os.nofile.rlim_cur) es ∈
        new_stderr os (check_system_limits_sanity es w os).2 := by
  have hM := min_viable_eq es w h1 h2 h3
  have hlt : os.nofile.rlim_cur < to_rlim_t (int_add (int_add es 4) w) := by omega
  constructor
  · rw [check_ret es w os hq]
    simp only [hlt, true_or, if_true]
    split_ifs <;> rfl
  · rw [mem_check_stderr es w os hq, mem_open_files_lines]
    exact Or.inl (Or.inl ⟨hlt, rfl⟩)

theorem check_soft_limit_low_witness :
    ({ linux_os with nofile := ⟨8, 65536⟩ } : OS).getrlimit_ret = 0 ∧
      (0 : Int) ≤ 10 ∧ (0 : Int) ≤ 2 ∧ (10 : Int) + 4 + 2 ≤ INT_MAX ∧
      (((({ linux_os with nofile := ⟨8, 65536⟩ } : OS).nofile.rlim_cur : Nat) : Int)
        < 10 + 4 + 2) ∧
      (check_system_limits_sanity 10 2 { linux_os with nofile := ⟨8, 65536⟩ }).1
        = some (-1) :=
  ⟨rfl, by decide, by decide, by decide, by decide,
    (check_soft_limit_low 10 2 { linux_os with nofile := ⟨8, 65536⟩ } rfl (by decide)
      (by decide) (by decide) (by decide)).1⟩

/-- C12, where both limits are too low: with soft limit 8 and system-wide maximum 12,
10 connections and 2 workers, the audit writes the warning on the process limit
only; no system-wide warning is written although 12 is below 10 + 4 + 2. -/
theorem system_wide_warning_skipped :
    (((max_open_files starved_os).1 : Nat) : Int) < 10 + 4 + 2 ∧
      new_stderr starved_os (check_system_limits_sanity 10 2 starved_os).2
        = [Msg.warn_open_files 8 10] ∧
      ¬ ∃ l c, Msg.warn_system_wide l c ∈
        new_stderr starved_os (check_system_limits_sanity 10 2 starved_os).2 := by
  have h : new_stderr starved_os (check_system_limits_sanity 10 2 starved_os).2
      = [Msg.warn_open_files 8 10] := by decide
  refine ⟨by decide, h, ?_⟩
  rw [h]
  simp

/-- C12, amended: the warnings on the process limit, the port range and TIME_WAIT are
each written exactly when their own condition holds; the system-wide warning is
written exactly when the system-wide maximum is below `es + 4 + w` and the
process limit is not. -/
theorem check_warnings (es w : Int) (os : OS) (hq : os.getrlimit_ret = 0)
    (h1 : 0 ≤ es) (h2 : 0 ≤ w) (h3 : es + 4 + w ≤ INT_MAX)
    (hport : ∀ lo hi rest, os.port_range = some (lo :: hi :: rest) →
      INT_MIN ≤ hi - lo ∧ hi - lo ≤ INT_MAX) :
    ((∃ l c, Msg.warn_open_files l c ∈
          new_stderr os (check_system_limits_sanity es w os).2) ↔
        (os.nofile.rlim_cur : Int) < es + 4 + w) ∧
      ((∃ l c, Msg.warn_system_wide l c ∈
          new_stderr os (check_system_limits_sanity es w os).2) ↔
        (es + 4 + w ≤ (os.nofile.rlim_cur : Int) ∧
          (((max_open_files os).1 : Nat) : Int) < es + 4 + w)) ∧
      ((∃ c lo hi, Msg.warn_port_range c lo hi ∈
          new_stderr os (check_system_limits_sanity es w os).2) ↔
        ∃ lo hi rest, os.port_range = some (lo :: hi :: rest) ∧ hi - lo < es) ∧
      ((∃ c, Msg.warn_time_wait c ∈
          new_stderr os (check_system_limits_sanity es w os).2) ↔
        ∃ flag rest, os.tw_reuse = some (flag :: rest) ∧ flag ≠ 1 ∧ 1 < es) := by
  have hM := min_viable_eq es w h1 h2 h3
  simp only [mem_check_stderr es w os hq, mem_open_files_lines, mem_port_range_lines,
    mem_time_wait_lines]
  generalize to_rlim_t (int_add (int_add es 4) w) = M at hM
  refine ⟨?_, ?_, ?_, ?_⟩
  · constructor
    · rintro ⟨l, c, h⟩
      simp at h
      omega
    · intro h
      exact ⟨_, _, Or.inl (Or.inl ⟨by omega, rfl⟩)⟩
  · constructor
    · rintro ⟨l, c, h⟩
      simp at h
      omega
    · rintro ⟨a, b⟩
      exact ⟨_, _, Or.inl (Or.inr (Or.inr ⟨by omega, by omega, rfl⟩))⟩
  · constructor
    · rintro ⟨c, lo, hi, h⟩
      simp at h
      obtain ⟨lo1, hi1, ⟨rest, hp⟩, hlt, -, rfl, rfl⟩ := h
      obtain ⟨a, b⟩ := hport _ _ _ hp
      rw [int_sub, wrap_int_of_range _ a b] at hlt
      exact ⟨_, _, _, hp, hlt⟩
    · rintro ⟨lo, hi, rest, hp, hlt⟩
      obtain ⟨a, b⟩ := hport _ _ _ hp
      refine ⟨es, lo, hi, Or.inr (Or.inl ⟨lo, hi, rest, hp, ?_, rfl⟩)⟩
      rw [int_sub, wrap_int_of_range _ a b]
      exact hlt
  · constructor
    · rintro ⟨c, h⟩
      simp at h
      obtain ⟨flag, ⟨rest, hp⟩, hf, hlt, -⟩ := h
      exact ⟨_, _, hp, hf, hlt⟩
    · rintro ⟨flag, rest, hp, hf, hlt⟩
      exact ⟨es, Or.inr (Or.inr ⟨flag, rest, hp, hf, hlt, rfl⟩)⟩

theorem check_warnings_witness :
    capped_os.getrlimit_ret = 0 ∧ (0 : Int) ≤ 10000 ∧ (0 : Int) ≤ 2 ∧
      (10000 : Int) + 4 + 2 ≤ INT_MAX ∧
      (∀ lo hi rest, capped_os.port_range = some (lo :: hi :: rest) →
        INT_MIN ≤ hi - lo ∧ hi - lo ≤ INT_MAX) ∧
      (∃ l c, Msg.warn_system_wide l c ∈
        new_stderr capped_os (check_system_limits_sanity 10000 2 capped_os).2) ∧
      ¬ (∃ l c, Msg.warn_open_files l c ∈
        new_stderr capped_os (check_system_limits_sanity 10000 2 capped_os).2) :=
  have hp : ∀ lo hi rest, capped_os.port_range = some (lo :: hi :: rest) →
      INT_MIN ≤ hi - lo ∧ hi - lo ≤ INT_MAX := by
    intro lo hi rest h
    simp only [capped_os, linux_os, Option.some.injEq, List.cons.injEq] at h
    obtain ⟨rfl, rfl, -⟩ := h
    decide
  ⟨rfl, by decide, by decide, by decide, hp,
    (check_warnings 10000 2 capped_os rfl (by decide) (by decide) (by decide) hp).2.1.mpr
      ⟨by decide, by decide⟩,
    fun h => absurd
      ((check_warnings 10000 2 capped_os rfl (by decide) (by decide) (by decide) hp).1.mp h)
      (by decide)⟩

/-- C14: the audit makes no `setrlimit` call and leaves the limit pair as it was, for
every input and environment. -/
theorem check_read_only (es w : Int) (os : OS) :
    new_calls os (check_system_limits_sanity es w os).2 = [] ∧
      (check_system_limits_sanity es w os).2.calls = os.calls ∧
      (check_system_limits_sanity es w os).2.nofile = os.nofile := by
  have hc : (check_system_limits_sanity es w os).2.calls = os.calls ∧
      (check_system_limits_sanity es w os).2.nofile = os.nofile := by
    by_cases hq : os.getrlimit_ret = 0
    · rw [check_unfold es w os hq]
      simp only []
      obtain ⟨-, -, c1, c2⟩ := check_blocks_frame es w
        (check_port_range es (check_open_files es w os.nofile 0 os).1
          (check_open_files es w os.nofile 0 os).2).1 os.nofile
        (check_port_range es (check_open_files es w os.nofile 0 os).1
          (check_open_files es w os.nofile 0 os).2).2
      obtain ⟨-, ⟨b1, b2⟩, -⟩ := check_blocks_frame es w
        (check_open_files es w os.nofile 0 os).1 os.nofile
        (check_open_files es w os.nofile 0 os).2
      obtain ⟨⟨a1, a2⟩, -, -⟩ := check_blocks_frame es w 0 os.nofile os
      exact ⟨by rw [c2, b2, a2], by rw [c1, b1, a1]⟩
    · unfold check_system_limits_sanity
      simp [getrlimit, hq]
  exact ⟨by simp [new_calls, hc.1], hc.1, hc.2⟩

/-- Whenever the system-wide warning is written, the number in it is the process soft
limit, which is above the system-wide maximum the warning is about. -/
theorem system_wide_warning_prints_soft_limit (es w : Int) (os : OS)
    (hq : os.getrlimit_ret = 0) (l c : Int)
    (h : Msg.warn_system_wide l c ∈
      new_stderr os (check_system_limits_sanity es w os).2) :
    l = to_long os.nofile.rlim_cur ∧ (max_open_files os).1 < os.nofile.rlim_cur := by
  rw [mem_check_stderr es w os hq, mem_open_files_lines, mem_port_range_lines,
    mem_time_wait_lines] at h
  simp at h
  obtain ⟨a, b, hl, -⟩ := h
  exact ⟨hl, lt_of_lt_of_le b a⟩

/-- C19, at a failing input: with process limit 65536 and system-wide maximum 4096,
for 10000 connections the only line written is the system-wide warning, and the
number in it is 65536, the process limit, not 4096. -/
theorem system_wide_warning_number :
    (max_open_files capped_os).1 = 4096 ∧
      capped_os.nofile.rlim_cur = 65536 ∧
      new_stderr capped_os (check_system_limits_sanity 10000 2 capped_os).2
        = [Msg.warn_system_wide 65536 10000] := by
  decide


/-! ## Further properties of the candidate list and of the loop -/

/-- C13: the candidate list has 3 entries, is in descending order, and is a
rearrangement of the hard ceiling (the hard limit, or the system-wide maximum when
the hard limit is unlimited), `es + 100 + w` and `es + 4 + w`. -/
theorem candidate_list_sorted_perm (es w : Int) (os : OS)
    (h1 : 0 ≤ es) (h2 : 0 ≤ w) (h3 : es + 100 + w ≤ INT_MAX) :
    (sorted_limits es w os).length = 3 ∧
      (sorted_limits es w os).Sorted (fun a b => b ≤ a) ∧
      (sorted_limits es w os).Perm
        [hard_ceiling os, (es + 100 + w).toNat, (es + 4 + w).toNat] ∧
      (os.nofile.rlim_max ≠ RLIM_INFINITY → hard_ceiling os = os.nofile.rlim_max) ∧
      (os.nofile.rlim_max = RLIM_INFINITY → hard_ceiling os = (max_open_files os).1) := by
  have hG := generous_eq es w h1 h2 h3
  have hM := min_viable_eq es w h1 h2 (by omega)
  obtain ⟨x, y, z, h, hxy, hyz⟩ := sorted_limits_three es w os
  refine ⟨by rw [h]; rfl, ?_, ?_, ?_, ?_⟩
  · rw [h]
    simp [List.Sorted]
    omega
  · have hp : (sorted_limits es w os).Perm (candidate_limits es w os) := qsort_perm _ _
    rw [candidate_limits_eq] at hp
    have e1 : to_rlim_t (int_add (int_add es 100) w) = (es + 100 + w).toNat := by omega
    have e2 : to_rlim_t (int_add (int_add es 4) w) = (es + 4 + w).toNat := by omega
    rw [e1, e2] at hp
    exact hp
  · intro hne; simp [hard_ceiling, hne]
  · intro he; simp [hard_ceiling, he]

theorem candidate_list_sorted_perm_witness :
    (0 : Int) ≤ 100 ∧ (0 : Int) ≤ 1 ∧ (100 : Int) + 100 + 1 ≤ INT_MAX ∧
      sorted_limits 100 1 sample_os = [201, 105, 10] ∧
      (sorted_limits 100 1 sample_os).Perm
        [hard_ceiling sample_os, ((100 : Int) + 100 + 1).toNat, ((100 : Int) + 4 + 1).toNat] :=
  ⟨by decide, by decide, by decide, by decide,
    (candidate_list_sorted_perm 100 1 sample_os (by decide) (by decide) (by decide)).2.2.1⟩

/-- C16, on a platform that defines `OPEN_MAX`: with the query failing and `OPEN_MAX`
defined as 10240 the ceiling returned is 10240, not 1024. -/
theorem max_open_files_open_max :
    darwin_os.sysconf_open_max = -1 ∧ (max_open_files darwin_os).1 = 10240 ∧
      (max_open_files darwin_os).1 ≠ 1024 := by
  decide

/-- C16, amended: the ceiling returned is the value of the query when the query does
not return -1; when it does, the ceiling is `OPEN_MAX` where the platform defines
it and 1024 where it does not, and the failure is reported on standard error. -/
theorem max_open_files_value (os : OS)
    (hv1 : -1 ≤ os.sysconf_open_max) (hv2 : os.sysconf_open_max ≤ LONG_MAX) :
    (os.sysconf_open_max ≠ -1 →
        (((max_open_files os).1 : Nat) : Int) = os.sysconf_open_max ∧
          (max_open_files os).2 = os) ∧
      (os.sysconf_open_max = -1 →
        (os.OPEN_MAX = none → (max_open_files os).1 = 1024) ∧
          (∀ m, os.OPEN_MAX = some m → (max_open_files os).1 = m) ∧
          new_stderr os (max_open_files os).2 = [Msg.perror_sysconf]) := by
  constructor
  · intro hne
    simp only [max_open_files, ne_eq, hne, not_false_eq_true, if_true, and_true]
    unfold to_rlim_t
    unfold LONG_MAX at hv2
    omega
  · intro he
    refine ⟨?_, ?_, ?_⟩
    · intro hn; simp [max_open_files, he, hn]
    · intro m hm; simp [max_open_files, he, hm]
    · simp [max_open_files, he, new_stderr, fprintf_stderr]

theorem max_open_files_value_witness :
    (-1 : Int) ≤ darwin_os.sysconf_open_max ∧ darwin_os.sysconf_open_max ≤ LONG_MAX ∧
      (max_open_files darwin_os).1 = 10240 ∧
      (((max_open_files linux_os).1 : Nat) : Int) = 65536 :=
  ⟨by decide, by decide,
    ((max_open_files_value darwin_os (by decide) (by decide)).2 rfl).2.1 10240 rfl,
    ((max_open_files_value linux_os (by decide) (by decide)).1 (by decide)).1⟩

theorem LoopRun.length_pos {limits : List Nat} {fuel i : Nat} {nf nf1 : rlimit}
    {tr : List Attempt} {ex : LoopExit} (h : LoopRun limits fuel i nf tr ex nf1)
    (hf : 0 < fuel) : 0 < tr.length := by
  cases h with
  | exhausted => omega
  | accepted => simp
  | failed => simp
  | retried => simp

/-- The n-th call of a run asks for the n-th candidate from the start index, every call
but the last is refused with EPERM or EINVAL, and the last is not unless the
candidates ran out. -/
theorem LoopRun.requests {limits : List Nat} {fuel i : Nat} {nf nf1 : rlimit}
    {tr : List Attempt} {ex : LoopExit} (h : LoopRun limits fuel i nf tr ex nf1) :
    ∀ (n : Nat) (a : Attempt), tr[n]? = some a →
      a.req = both (limits.getD (i + n) 0) ∧
        (n + 1 < tr.length → a.soft_refused) ∧
        (n + 1 = tr.length → tr.length < fuel → ¬ a.soft_refused) := by
  induction h with
  | exhausted => intro n a ha; simp at ha
  | accepted fuel i nf =>
    intro n a ha
    cases n with
    | zero =>
      simp at ha; subst ha
      simp [Attempt.soft_refused, both]
    | succ n => simp at ha
  | failed fuel i nf e h1 h2 =>
    intro n a ha
    cases n with
    | zero =>
      simp at ha; subst ha
      simp [Attempt.soft_refused, both, h1, h2]
    | succ n => simp at ha
  | retried fuel i nf e h tr ex nf1 rest ih =>
    intro n a ha
    cases n with
    | zero =>
      simp at ha; subst ha
      refine ⟨by simp [both], ?_, ?_⟩
      · intro _
        rcases h with h | h <;> simp [Attempt.soft_refused, h]
      · intro hl hf
        simp only [List.length_cons] at hl hf
        have := rest.length_pos (by omega)
        omega
    | succ n =>
      simp at ha
      obtain ⟨x, y, z⟩ := ih n a ha
      refine ⟨?_, ?_, ?_⟩
      · rw [x]; congr 2; omega
      · intro hl; exact y (by simp at hl; omega)
      · intro hl hf; exact z (by simp at hl; omega) (by simp at hf; omega)

/-- A run without an accepted call leaves the limit pair as it was. -/
theorem LoopRun.none_accepted {limits : List Nat} {fuel i : Nat} {nf nf1 : rlimit}
    {tr : List Attempt} {ex : LoopExit} (h : LoopRun limits fuel i nf tr ex nf1)
    (hall : ∀ a ∈ tr, a.refused ≠ none) : nf1 = nf := by
  induction h with
  | exhausted => rfl
  | accepted fuel i nf =>
    have := hall _ (List.mem_singleton_self _)
    simp at this
  | failed => rfl
  | retried fuel i nf e h tr ex nf1 rest ih =>
    exact ih (fun a ha => hall a (List.mem_cons_of_mem _ ha))

/-- A run left at an index before the end installed the candidate of that index. -/
theorem LoopRun.left_early {limits : List Nat} {fuel i : Nat} {nf nf1 : rlimit}
    {tr : List Attempt} {ex : LoopExit} (h : LoopRun limits fuel i nf tr ex nf1) :
    ∀ j, ex = LoopExit.left j → j < i + fuel → nf1 = both (limits.getD j 0) := by
  induction h with
  | exhausted => intro j hj hlt; cases hj; omega
  | accepted fuel i nf => intro j hj _; cases hj; rfl
  | failed => intro j hj; cases hj
  | retried fuel i nf e h tr ex nf1 rest ih =>
    intro j hj hlt
    exact ih j hj (by omega)

/-- A run is left by `return -1` or at an index between its start and its end. -/
theorem LoopRun.exit_shape {limits : List Nat} {fuel i : Nat} {nf nf1 : rlimit}
    {tr : List Attempt} {ex : LoopExit} (h : LoopRun limits fuel i nf tr ex nf1) :
    (∃ j, ex = LoopExit.left j ∧ i ≤ j ∧ j ≤ i + fuel) ∨ ex = LoopExit.returned (-1) := by
  induction h with
  | exhausted i nf => exact Or.inl ⟨i, rfl, le_refl _, by omega⟩
  | accepted fuel i nf => exact Or.inl ⟨i, rfl, le_refl _, by omega⟩
  | failed => exact Or.inr rfl
  | retried fuel i nf e h tr ex nf1 rest ih =>
    rcases ih with ⟨j, a, b, c⟩ | ih
    · exact Or.inl ⟨j, a, by omega, by omega⟩
    · exact Or.inr ih

theorem set_limits_loop_env (k : Setter) (limits : List Nat) (fuel : Nat) :
    ∀ (i : Nat) (os : OS),
      (set_limits_loop k limits fuel i os).2.getrlimit_ret = os.getrlimit_ret := by
  induction fuel with
  | zero => intro i os; rfl
  | succ fuel ih =>
    intro i os
    simp only [set_limits_loop, setrlimit]
    cases hk : k os ⟨limits.getD i 0, limits.getD i 0⟩ with
    | none => simp
    | some e =>
      by_cases he : e = EPERM ∨ e = EINVAL
      · simp only [he, if_true]
        rw [ih]
      · simp [he, fprintf_stderr]

/-- The negotiation does not change what `getrlimit` answers. -/
theorem adjust_env (k : Setter) (es w : Int) (os : OS) (hq : os.getrlimit_ret = 0) :
    (adjust_system_limits_for_highload k es w os).2.getrlimit_ret = 0 := by
  obtain ⟨-, -, h3⟩ := max_open_files_frame os
  have hl := set_limits_loop_env k (sorted_limits es w os) 3 0 (max_open_files os).2
  rw [h3, hq] at hl
  rw [adjust_eq k es w os hq]
  split_ifs with hsc
  · rw [h3, hq]
  · simp only []
    rcases hx : set_limits_loop k (sorted_limits es w os) 3 0 (max_open_files os).2 with
      ⟨ex, os1⟩
    rw [hx] at hl
    simp only at hl
    cases ex with
    | returned ret => exact hl
    | left i =>
      simp only
      split_ifs <;> simpa [fprintf_stderr] using hl

/-- The assertion on `getrlimit` passed whenever the negotiation returned a value. -/
theorem adjust_returned (k : Setter) (es w : Int) (os : OS) (r : Int)
    (h : (adjust_system_limits_for_highload k es w os).1 = some r) :
    os.getrlimit_ret = 0 := by
  by_contra hq
  obtain ⟨-, -, h3⟩ := max_open_files_frame os
  unfold adjust_system_limits_for_highload at h
  simp [getrlimit, h3, hq] at h

/-- C17: whenever the negotiation returns 0 the soft limit afterwards is at least
`es + 4 + w`, and the audit run on the resulting state with the same arguments does
not write the warning on the process limit. -/
theorem adjust_success_sufficient (k : Setter) (es w : Int) (os : OS)
    (h1 : 0 ≤ es) (h2 : 0 ≤ w) (h3 : es + 4 + w ≤ INT_MAX)
    (hret : (adjust_system_limits_for_highload k es w os).1 = some 0) :
    es + 4 + w ≤ ((adjust_system_limits_for_highload k es w os).2.nofile.rlim_cur : Int) ∧
      ¬ ∃ l c, Msg.warn_open_files l c ∈
        new_stderr (adjust_system_limits_for_highload k es w os).2
          (check_system_limits_sanity es w
            (adjust_system_limits_for_highload k es w os).2).2 := by
  have hq := adjust_returned k es w os 0 hret
  have hq1 := adjust_env k es w os hq
  have hM := min_viable_eq es w h1 h2 h3
  have hsoft : to_rlim_t (int_add (int_add es 4) w) ≤
      (adjust_system_limits_for_highload k es w os).2.nofile.rlim_cur := by
    by_cases hsc : (sorted_limits es w os).getD 0 0 ≤ os.nofile.rlim_cur
    · obtain ⟨-, -, hn⟩ := adjust_short k es w os hq hsc
      rw [hn]
      exact le_trans ((sorted_limits_head es w os).2 _ (min_viable_mem es w os)) hsc
    · obtain ⟨ex, hrun, hv⟩ := adjust_run k es w os hq (not_le.mp hsc)
      rw [hv] at hret
      rcases hrun.exit_shape with ⟨j, hex, -, hle⟩ | hex
      · subst hex
        simp only [exit_value, Option.some.injEq] at hret
        by_cases hj : j = 3
        · rw [if_pos hj] at hret
          exact absurd hret (by decide)
        · rw [if_neg hj] at hret
          by_cases hlt : (sorted_limits es w os).getD j 0 <
              to_size_t (int_add (int_add es 4) w)
          · rw [if_pos hlt] at hret
            exact absurd hret (by decide)
          · rw [hrun.left_early j rfl (by omega)]
            simpa [both, to_size_t_eq] using hlt
      · subst hex
        simp only [exit_value, Option.some.injEq] at hret
        exact absurd hret (by decide)
  constructor
  · omega
  · rintro ⟨l, c, hm⟩
    rw [mem_check_stderr es w _ hq1, mem_open_files_lines, mem_port_range_lines,
      mem_time_wait_lines] at hm
    simp at hm
    omega

theorem adjust_success_sufficient_witness :
    (0 : Int) ≤ 100 ∧ (0 : Int) ≤ 1 ∧ (100 : Int) + 4 + 1 ≤ INT_MAX ∧
      (adjust_system_limits_for_highload (scripted [none]) 100 1 sample_os).1 = some 0 ∧
      (100 : Int) + 4 + 1 ≤
        ((adjust_system_limits_for_highload (scripted [none]) 100 1
          sample_os).2.nofile.rlim_cur : Int) :=
  ⟨by decide, by decide, by decide, by decide,
    (adjust_success_sufficient (scripted [none]) 100 1 sample_os (by decide) (by decide)
      (by decide) (by decide)).1⟩

/-- Entries of the sorted list do not increase with the index. -/
theorem sorted_limits_antitone (es w : Int) (os : OS) (m n : Nat) (hmn : m ≤ n)
    (hn : n < 3) : (sorted_limits es w os).getD n 0 ≤ (sorted_limits es w os).getD m 0 := by
  obtain ⟨x, y, z, h, hxy, hyz⟩ := sorted_limits_three es w os
  rw [h]
  interval_cases n <;> interval_cases m <;> simp <;> omega

/-- C15: past the short-circuit the calls made are the entries of the sorted candidate
list from the first one on, each with soft and hard limit equal, up to and including
the first one not refused with EPERM or EINVAL; there are between 1 and 3 of them;
an accepted call is the last one, its pair is installed, and every call before it
was refused and asked for at least as much. -/
theorem adjust_attempts (k : Setter) (es w : Int) (os : OS)
    (hq : os.getrlimit_ret = 0)
    (hsc : ∃ c ∈ candidate_limits es w os, os.nofile.rlim_cur < c)
    (tr : List Attempt)
    (htr : tr = new_calls os (adjust_system_limits_for_highload k es w os).2) :
    1 ≤ tr.length ∧ tr.length ≤ 3 ∧
      tr.map Attempt.req = ((sorted_limits es w os).take tr.length).map both ∧
      (∀ n a, tr[n]? = some a → n + 1 < tr.length → a.soft_refused) ∧
      (∀ n a, tr[n]? = some a → n + 1 = tr.length → tr.length < 3 → ¬ a.soft_refused) ∧
      (∀ n a, tr[n]? = some a → a.refused = none →
        n + 1 = tr.length ∧
          (adjust_system_limits_for_highload k es w os).2.nofile = a.req ∧
          ∀ m b, m < n → tr[m]? = some b →
            b.soft_refused ∧ a.req.rlim_cur ≤ b.req.rlim_cur) := by
  have hlt : os.nofile.rlim_cur < (sorted_limits es w os).getD 0 0 := by
    obtain ⟨c, hc, hlt⟩ := hsc
    exact lt_of_lt_of_le hlt ((sorted_limits_head es w os).2 c hc)
  obtain ⟨ex, hrun, -⟩ := adjust_run k es w os hq hlt
  rw [← htr] at hrun
  have hlen := hrun.length_le
  have hpos := hrun.length_pos (by decide)
  have hreq := hrun.requests
  obtain ⟨x, y, z, h3, -, -⟩ := sorted_limits_three es w os
  refine ⟨hpos, hlen, ?_, ?_, ?_, ?_⟩
  · apply List.ext_getElem?
    intro n
    by_cases hn : n < tr.length
    · have hs : tr[n]? = some (tr[n]) := List.getElem?_eq_getElem hn
      obtain ⟨e, -, -⟩ := hreq n _ hs
      have hn3 : n < 3 := by omega
      rw [List.getElem?_map, List.getElem?_map, hs, List.getElem?_take_of_lt hn]
      simp only [Option.map_some', zero_add] at e ⊢
      rw [e, h3]
      interval_cases n <;> rfl
    · have hn1 : tr.length ≤ n := not_lt.mp hn
      rw [List.getElem?_eq_none (by simpa using hn1),
        List.getElem?_eq_none (by simp; omega)]
  · intro n a ha; exact (hreq n a ha).2.1
  · intro n a ha; exact (hreq n a ha).2.2
  · intro n a ha hacc
    have hn : n < tr.length := by
      by_contra hc
      rw [List.getElem?_eq_none (not_lt.mp hc)] at ha
      cases ha
    have hlast : n + 1 = tr.length := by
      by_contra hc
      have hs := (hreq n a ha).2.1 (by omega)
      rcases hs with hs | hs <;> rw [hacc] at hs <;> cases hs
    obtain ⟨j, -, -, -, -, hnf⟩ := hrun.mem_accepted a (List.getElem?_mem ha) hacc
    refine ⟨hlast, hnf, ?_⟩
    intro m b hm hb
    obtain ⟨eb, sb, -⟩ := hreq m b hb
    obtain ⟨ea, -, -⟩ := hreq n a ha
    refine ⟨sb (by omega), ?_⟩
    rw [ea, eb]
    simp only [both, zero_add]
    exact sorted_limits_antitone es w os m n (le_of_lt hm) (by omega)

theorem adjust_attempts_witness :
    sample_os.getrlimit_ret = 0 ∧
      (∃ c ∈ candidate_limits 100 1 sample_os, sample_os.nofile.rlim_cur < c) ∧
      new_calls sample_os (adjust_system_limits_for_highload
          (scripted [some EPERM, none]) 100 1 sample_os).2
        = [⟨both 201, some EPERM⟩, ⟨both 105, none⟩] ∧
      List.map Attempt.req [⟨both 201, some EPERM⟩, ⟨both 105, none⟩]
        = ((sorted_limits 100 1 sample_os).take 2).map both :=
  ⟨rfl, by decide, by decide,
    (adjust_attempts (scripted [some EPERM, none]) 100 1 sample_os rfl (by decide)
      [⟨both 201, some EPERM⟩, ⟨both 105, none⟩] (by decide)).2.2.1⟩

/-- C18: a negotiation in which no call is accepted leaves the limit pair as it was;
but the negotiation can return -1 after an accepted call, as with soft limit 5,
hard limit 10, 100 connections, 1 worker and a kernel refusing 201 and 105 and
accepting 10; whenever it does, the pair installed is the hard ceiling twice, which
is the smallest candidate and below `es + 4 + w`. -/
theorem adjust_failure_frame (k : Setter) (es w : Int) (os : OS)
    (hq : os.getrlimit_ret = 0)
    (h1 : 0 ≤ es) (h2 : 0 ≤ w) (h3 : es + 100 + w ≤ INT_MAX) :
    ((∀ a ∈ new_calls os (adjust_system_limits_for_highload k es w os).2,
          a.refused ≠ none) →
        (adjust_system_limits_for_highload k es w os).2.nofile = os.nofile) ∧
      ((adjust_system_limits_for_highload (scripted [some EPERM, some EPERM, none]) 100 1
            sample_os).1 = some (-1) ∧
        (adjust_system_limits_for_highload (scripted [some EPERM, some EPERM, none]) 100 1
            sample_os).2.nofile = ⟨10, 10⟩ ∧
        sample_os.nofile = ⟨5, 10⟩) ∧
      (∀ a ∈ new_calls os (adjust_system_limits_for_highload k es w os).2,
        a.refused = none →
        (adjust_system_limits_for_highload k es w os).1 = some (-1) →
        (adjust_system_limits_for_highload k es w os).2.nofile = a.req ∧
          a.req = both (hard_ceiling os) ∧
          (∀ c ∈ candidate_limits es w os, a.req.rlim_cur ≤ c) ∧
          (a.req.rlim_cur : Int) < es + 4 + w) := by
  have hG := generous_eq es w h1 h2 h3
  have hM := min_viable_eq es w h1 h2 (by omega)
  refine ⟨?_, by decide, ?_⟩
  · intro hall
    rcases adjust_cases k es w os hq with h | ⟨ex, hrun, -⟩
    · by_cases hsc : (sorted_limits es w os).getD 0 0 ≤ os.nofile.rlim_cur
      · exact (adjust_short k es w os hq hsc).2.2
      · obtain ⟨ex, hrun, -⟩ := adjust_run k es w os hq (not_le.mp hsc)
        exact hrun.none_accepted hall
    · exact hrun.none_accepted hall
  · intro a ha hacc hret
    rcases adjust_cases k es w os hq with h | ⟨ex, hrun, hv⟩
    · rw [h] at ha; simp at ha
    · obtain ⟨j, -, hj, hex, hreq, hnf⟩ := hrun.mem_accepted a ha hacc
      subst hex
      rw [hv] at hret
      simp only [exit_value, Option.some.injEq, to_size_t_eq] at hret
      have hj3 : j ≠ 3 := by omega
      rw [if_neg hj3] at hret
      have hlow : (sorted_limits es w os).getD j 0 <
          to_rlim_t (int_add (int_add es 4) w) := by
        by_contra hc
        rw [if_neg hc] at hret
        exact absurd hret (by decide)
      refine ⟨hnf, ?_⟩
      rw [hreq]
      simp only [both]
      rw [candidate_limits_eq]
      revert hlow
      unfold sorted_limits
      rw [candidate_limits_eq, qsort_three_eq]
      generalize to_rlim_t (int_add (int_add es 100) w) = G at hG
      generalize to_rlim_t (int_add (int_add es 4) w) = M at hM
      generalize hard_ceiling os = H
      have hj' : j < 3 := by omega
      intro hlow
      interval_cases j <;> split_ifs at hlow ⊢ <;> simp at hlow ⊢ <;> omega

theorem adjust_failure_frame_witness :
    sample_os.getrlimit_ret = 0 ∧ (0 : Int) ≤ 100 ∧ (0 : Int) ≤ 1 ∧
      (100 : Int) + 100 + 1 ≤ INT_MAX ∧
      (∀ a ∈ new_calls sample_os (adjust_system_limits_for_highload
          (scripted [some EPERM, some EINVAL, some EPERM]) 100 1 sample_os).2,
        a.refused ≠ none) ∧
      (adjust_system_limits_for_highload
          (scripted [some EPERM, some EINVAL, some EPERM]) 100 1 sample_os).2.nofile
        = sample_os.nofile :=
  ⟨rfl, by decide, by decide, by decide, by decide,
    (adjust_failure_frame (scripted [some EPERM, some EINVAL, some EPERM]) 100 1 sample_os
      rfl (by decide) (by decide) (by decide)).1 (by decide)⟩

end Tcpkali
